import Mathlib

/-!
# Verification of the GMusicFS in-memory library model and FUSE translation layer

Shallow embedding of `gmusicfs/gmusicfs.py` (Python 2).  Strings are modelled
as `List Char` (`Name`); Python dict-of-fields track records are modelled as a
`Track` structure carrying exactly the keys the source reads; fallible Python
code (exceptions) is modelled with `Except PyErr`.  The CPython 2.7 runtime
semantics the source relies on are modelled explicitly where they matter:
`str.lower`/`str.strip` are ASCII-level, `dict` iteration order for small
int-keyed dicts follows the open-addressing table (hash(int) = int, 8 slots),
and `list.sort` is a stable sort.
-/

/-- Python byte-strings are modelled as lists of characters. -/
abbrev Name := List Char

/-- One character step of `re.sub('/', '-', s)`. -/
def slashToDash (c : Char) : Char := if c = '/' then '-' else c

/-- `formatNames` (gmusicfs.py line 36): replace every forward slash with a
hyphen, everything else unchanged. -/
def formatNames (s : Name) : Name := s.map slashToDash

/-- ASCII lower-casing of one character, as Python 2 `str.lower` does per byte:
`A`..`Z` (65..90) shift by 32, everything else unchanged. -/
def lowerChar (c : Char) : Char :=
  if 65 ≤ c.toNat ∧ c.toNat ≤ 90 then Char.ofNat (c.toNat + 32) else c

/-- Python 2 `str.lower` on a byte string. -/
def pyLower (s : Name) : Name := s.map lowerChar

/-- The whitespace set stripped by Python 2 `str.strip()` with no argument. -/
def pyIsSpace (c : Char) : Bool :=
  c = ' ' ∨ c = '\t' ∨ c = '\n' ∨ c = '\r' ∨ c = '\x0b' ∨ c = '\x0c'

/-- Python 2 `str.strip()`: drop leading and trailing whitespace. -/
def pyStrip (s : Name) : Name :=
  (s.dropWhile pyIsSpace).reverse.dropWhile pyIsSpace |>.reverse

/-- Decimal digit character for `d < 10`. -/
def digitChar (d : Nat) : Char := Char.ofNat (48 + d)

/-- Fuel-driven decimal rendering helper (most significant digit first). -/
def decDigitsCore : Nat → Nat → Name
  | 0, _ => []
  | fuel + 1, n =>
    if n < 10 then [digitChar n]
    else decDigitsCore fuel (n / 10) ++ [digitChar (n % 10)]

/-- Decimal rendering of a natural number, as Python `'%d'`. -/
def decDigits (n : Nat) : Name := decDigitsCore (n + 1) n

/-- Python `'%03d' % n` for natural `n`: zero-pad the decimal rendering to at
least three characters. -/
def pad3 (n : Nat) : Name :=
  let ds := decDigits n
  List.replicate (3 - ds.length) '0' ++ ds

/-- The Python-level exceptions the embedded code can raise.  `enoent` stands
for `FuseOSError(ENOENT)`; the others are ordinary Python exceptions escaping
the handler (`AttributeError` from attribute access on `None`, `TypeError` from
subscripting/arithmetic on unsupported operands, `NameError` from an unbound
name, `RuntimeError` raised explicitly, `KeyError` from a missing dict key,
`URLError` from a failed network request). -/
inductive PyErr where
  | enoent
  | attributeError
  | typeError
  | nameError
  | runtimeError
  | keyError
  | urlError
deriving DecidableEq, Repr

/-- A track record as returned by the collaborator's `get_all_songs`, holding
exactly the keys this source file reads: `title`, `artist`, `albumArtist`,
`album`, `trackNumber`, `year` (optional), `estimatedSize`, `bytes` (set only
by the lazy size probe), `creationTimestamp` / `recentTimestamp` (optional),
`comment`, `id` (optional), `albumArtRef` (list of cover-art URLs).  The
records carry no key named `track` (the number lives under `trackNumber`), a
fact `Album.get_tracks`'s sort key depends on. -/
structure Track where
  title : Name
  artist : Name
  albumArtist : Name
  album : Name
  trackNumber : Nat
  year : Option Int
  estimatedSize : Int
  bytes : Option Int
  creationTimestamp : Option Int
  recentTimestamp : Option Int
  comment : Name
  id : Option Name
  albumArtRef : List Name
deriving DecidableEq, Repr

/-- `track.get('track')`: the records carry no `track` key (the source reads
the number as `track['trackNumber']` everywhere else), so `dict.get` returns
`None` for every record. -/
def Track.getTrackKey (_ : Track) : Option Int := none

/-- Stable insertion sort: `x` is inserted after every earlier element that
strictly precedes it and before everything else, which reproduces the
stability guarantee of Python's `list.sort`/`sorted`. -/
def stableInsert {α : Type} (lt : α → α → Bool) (x : α) : List α → List α
  | [] => [x]
  | y :: ys => if lt y x then y :: stableInsert lt x ys else x :: y :: ys

/-- Stable sort by the strict precedence `lt` (elements comparing equal keep
their original relative order). -/
def stableSort {α : Type} (lt : α → α → Bool) : List α → List α
  | [] => []
  | x :: xs => stableInsert lt x (stableSort lt xs)

/-- Python 2 ordering on the optional sort keys produced by `t.get('track')`:
`None < None` is false (they compare equal), and integers compare normally. -/
def pyOptIntLt : Option Int → Option Int → Bool
  | none, none => false
  | none, some _ => true
  | some _, none => false
  | some a, some b => a < b

/-- An `Album` (gmusicfs.py class `Album`): the real title plus the list of
tracks in the order they were appended by aggregation. -/
structure Album where
  realtitle : Name
  tracks : List Track
deriving DecidableEq, Repr

/-- `Album.normtitle`: `formatNames` applied to the real title. -/
def Album.normtitle (a : Album) : Name := formatNames a.realtitle

/-- `Album.get_tracks` (lines 134-147): re-sort the track list by the key
`t.get('track')` when dirty.  Since no record has a `track` key every key is
`None`, so the stable sort leaves the list in insertion order.  The optional
size probing (`get_size=True`) touches only the `bytes` field, never the names
or the order, and is modelled separately. -/
def Album.get_tracks (a : Album) : List Track :=
  stableSort (fun t1 t2 => pyOptIntLt t1.getTrackKey t2.getTrackKey) a.tracks

/-- `Album.get_cover_url` (lines 164-171): first track's first `albumArtRef`
URL, with the bare `except` collapsing any failure (no tracks, empty ref list)
to `None`. -/
def Album.get_cover_url (a : Album) : Option Name :=
  match a.tracks with
  | [] => none
  | t :: _ => t.albumArtRef.head?

/-- The character class `[0-9]`. -/
def isDigitChar (c : Char) : Bool := 48 ≤ c.toNat && c.toNat ≤ 57

/-- Python `re` end-anchor semantics: `$` matches at the end of the string or
just before one final newline, so a suffix-anchored pattern tolerates a single
trailing `'\n'`.  This strips that optional final newline. -/
def dollarStrip (s : Name) : Name :=
  if s.getLast? = some '\n' then s.dropLast else s

/-- Match of `Album`'s filename regex `^[0-9]+ - (.*)\.mp3$` (line 127),
returning the `(.*)` title group.  `[0-9]+` takes the maximal digit run (a
shorter run is never followed by the literal `' - '`), `.` does not match a
newline, and `$` tolerates one final newline (`dollarStrip`). -/
def parseAlbumFilename (f : Name) : Option Name :=
  let core := dollarStrip f
  if '\n' ∈ core then none
  else
    let digits := core.takeWhile isDigitChar
    let rest := core.drop digits.length
    if digits = [] then none
    else if rest.take 3 = " - ".data then
      let body := rest.drop 3
      if body.length ≥ 4 ∧ body.drop (body.length - 4) = ".mp3".data then
        some (body.take (body.length - 4))
      else none
    else none

/-- `Album.get_track` (lines 149-158): extract the title group from the
filename and return the first track of `get_tracks()` whose
`formatNames(title.lower())` equals the group lower-cased; `None` when the
regex fails or no title matches. -/
def Album.get_track (a : Album) (filename : Name) : Option Track :=
  match parseAlbumFilename filename with
  | none => none
  | some title =>
      a.get_tracks.find? (fun t => formatNames (pyLower t.title) == pyLower title)

/-- A `Playlist` (gmusicfs.py class `Playlist`): display name plus tracks in
server-declared order (`Playlist.get_tracks` returns them unsorted). -/
structure Playlist where
  realname : Name
  tracks : List Track
deriving DecidableEq, Repr

/-- `Playlist.dirname` (line 52): `formatNames(realname).strip()`. -/
def Playlist.dirname (p : Playlist) : Name := pyStrip (formatNames p.realname)

/-- Match of `Playlist`'s filename regex `^([0-9]+) - [^/]+\.mp3$` (line 49),
returning the digit group.  `[^/]+` admits any character but `'/'` (newlines
included) and must be non-empty before the literal `.mp3`. -/
def parsePlaylistFilename (f : Name) : Option Name :=
  let core := dollarStrip f
  let digits := core.takeWhile isDigitChar
  let rest := core.drop digits.length
  if digits = [] then none
  else if rest.take 3 = " - ".data then
    let body := rest.drop 3
    if body.length ≥ 5 ∧ body.drop (body.length - 4) = ".mp3".data ∧ '/' ∉ body then
      some digits
    else none
  else none

/-- `Playlist.get_track` (lines 79-85).  On a regex match the code computes
`self.__tracks[tracknum - 1]` where `tracknum = m.groups()[0]` is a *string*:
in Python 2 `str - int` raises `TypeError: unsupported operand type(s)`, so
every matching filename raises; a non-matching filename returns `None`. -/
def Playlist.get_track (_p : Playlist) (filename : Name) : Except PyErr (Option Track) :=
  match parsePlaylistFilename filename with
  | some _ => .error .typeError
  | none => .ok none

/-- The `lowercase` mount option's `self.transform` (lines 355-358): lower-case
the rendered segment when enabled, identity otherwise. -/
def applyCase (lowercase : Bool) (s : Name) : Name :=
  if lowercase then pyLower s else s

/-- One album-directory entry as rendered by `readdir` (lines 528-530):
`'%03d - %s.mp3' % (track['trackNumber'], transform(formatNames(track['title'])))`. -/
def renderAlbumEntry (lowercase : Bool) (t : Track) : Name :=
  pad3 t.trackNumber ++ " - ".data ++ applyCase lowercase (formatNames t.title) ++ ".mp3".data

/-- The album branch of `readdir` (lines 522-535): `'.'`, `'..'`, one rendered
entry per track of `get_tracks()`, then `cover.jpg` when a cover URL exists. -/
def readdirAlbum (lowercase : Bool) (a : Album) : List Name :=
  [".".data, "..".data] ++ a.get_tracks.map (renderAlbumEntry lowercase) ++
    (match a.get_cover_url with
     | some _ => ["cover.jpg".data]
     | none => [])

/-- One playlist-directory entry as rendered by `readdir` (line 542):
`transform(formatNames('%03d - %s - %s - %s.mp3' % (tracknum, artist, album,
title)))` where `tracknum` counts 1, 2, ... in playlist order. -/
def renderPlaylistEntry (lowercase : Bool) (i : Nat) (t : Track) : Name :=
  applyCase lowercase (formatNames
    (pad3 i ++ " - ".data ++ t.artist ++ " - ".data ++ t.album ++ " - ".data ++
      t.title ++ ".mp3".data))

/-- The playlist branch of `readdir` (lines 536-544): `'.'`, `'..'`, one entry
per track with the running ordinal starting at 1. -/
def readdirPlaylist (lowercase : Bool) (p : Playlist) : List Name :=
  [".".data, "..".data] ++
    (p.tracks.enumFrom 1).map (fun it => renderPlaylistEntry lowercase it.1 it.2)

/-- CPython 2.7 `hash` on a plain integer: the identity, except that `-1` hashes
to `-2`. -/
def pyHash (i : Int) : Int := if i = -1 then -2 else i

/-- The slot table of a CPython 2.7 dict that has seen at most five distinct
keys: eight open-addressing slots (the table grows only at the sixth used
slot, which none of the dicts modelled here reach). -/
abbrev DictSlots := List (Option (Int × Nat))

/-- An empty CPython small dict: eight free slots. -/
def emptyDict : DictSlots := List.replicate 8 none

/-- The open-addressing probe of CPython 2.7 `lookdict`: start at `hash & 7`,
and on a collision step to `(5*i + 1 + perturb) & 7` with `perturb` starting at
the unsigned 64-bit cast of the hash and shifting right by five each step.
Returns the slot holding the key, or the first free slot. -/
def dictProbe (slots : DictSlots) (k : Int) : Nat → Nat → Nat → Nat
  | 0, i, _ => i
  | fuel + 1, i, perturb =>
    match slots.getD i none with
    | none => i
    | some (k', _) =>
      if k' = k then i
      else dictProbe slots k fuel ((5 * i + 1 + perturb) % 8) (perturb / 32)

/-- The slot index at which key `k` lives or would be inserted. -/
def dictSlotOf (slots : DictSlots) (k : Int) : Nat :=
  dictProbe slots k 64 ((pyHash k % 8).toNat) ((pyHash k % (2 ^ 64 : Int)).toNat)

/-- `d.get(k, default)` on the modelled dict. -/
def dictGet (slots : DictSlots) (k : Int) (default : Nat) : Nat :=
  match slots.getD (dictSlotOf slots k) none with
  | some (k', v) => if k' = k then v else default
  | none => default

/-- `d[k] = v` on the modelled dict. -/
def dictSet (slots : DictSlots) (k : Int) (v : Nat) : DictSlots :=
  slots.set (dictSlotOf slots k) (some (k, v))

/-- `d.items()` on the modelled dict: the occupied slots in table order (slot
0 through 7), which is CPython 2.7's iteration order — *not* insertion
order. -/
def dictItems (slots : DictSlots) : List (Int × Nat) := slots.filterMap id

/-- The `years` counting dict of `Album.get_year` (lines 186-191): walk
`get_tracks()` and bump the count of each truthy (`if y:`) track year. -/
def Album.yearsDict (a : Album) : DictSlots :=
  a.get_tracks.foldl
    (fun d t =>
      match t.year with
      | none => d
      | some y => if y = 0 then d else dictSet d y (dictGet d y 0 + 1))
    emptyDict

/-- `Album.get_year` (lines 182-198): count each truthy track year in a dict,
`sorted(years.items(), key=itemgetter(1), reverse=True)` (a stable sort on the
count alone, descending), and take the first key, defaulting to `0` on an
empty dict. -/
def Album.get_year (a : Album) : Int :=
  match stableSort (fun p1 p2 : Int × Nat => p2.2 < p1.2) (dictItems a.yearsDict) with
  | [] => 0
  | (y, _) :: _ => y

/-- Python dict lookup `d.get(key, None)` on an association list keyed by
strings. -/
def assocGet {V : Type} (key : Name) (l : List (Name × V)) : Option V :=
  (l.find? (fun kv => kv.1 == key)).map (fun kv => kv.2)

/-- Python dict store `d[key] = v`: replace the value in place when the key is
present, append otherwise. -/
def assocSet {V : Type} (key : Name) (v : V) : List (Name × V) → List (Name × V)
  | [] => [(key, v)]
  | kv :: rest => if kv.1 = key then (key, v) :: rest else kv :: assocSet key v rest

/-- An `Artist` (gmusicfs.py class `Artist`): display name plus the mapping
from lower-cased normalized album title to `Album`. -/
structure Artist where
  realname : Name
  albums : List (Name × Album)
deriving DecidableEq, Repr

/-- `Artist.add_album` (lines 103-105): store under `album.normtitle.lower()`. -/
def Artist.add_album (ar : Artist) (al : Album) : Artist :=
  { ar with albums := assocSet (pyLower al.normtitle) al ar.albums }

/-- `Artist.get_album` (lines 111-113): `self.__albums.get(title.lower(), None)`. -/
def Artist.get_album (ar : Artist) (title : Name) : Option Album :=
  assocGet (pyLower title) ar.albums

/-- The artist-name precedence of `__aggregate_albums` (lines 273-278): the
formatted album-artist when it does not strip to empty, else the formatted
artist when it does not strip to empty, else the literal `'Unknown'`. -/
def chosenArtistName (t : Track) : Name :=
  let n1 := formatNames t.albumArtist
  let n2 := if pyStrip n1 = [] then formatNames t.artist else n1
  if pyStrip n2 = [] then "Unknown".data else n2

/-- The lower-cased chosen artist name a track is bucketed under (line 281). -/
def artistKeyOf (t : Track) : Name := pyLower (chosenArtistName t)

/-- The `Artist` object `__aggregate_albums` works on for a track: the
existing bucket, or a fresh `Artist(self, artist_name)` (lines 281-284). -/
def artistFor (artists : List (Name × Artist)) (t : Track) : Artist :=
  (assocGet (artistKeyOf t) artists).getD ⟨chosenArtistName t, []⟩

/-- The `Album` object the track is appended to: the existing
`artist.get_album(formatNames(track['album']))`, or a fresh
`Album(self, track['album'])` (lines 287-291). -/
def albumFor (artists : List (Name × Artist)) (t : Track) : Album :=
  ((artistFor artists t).get_album (formatNames t.album)).getD ⟨t.album, []⟩

/-- One track's worth of `__aggregate_albums` (lines 270-298): get-or-create
the `Artist` bucket under the lower-cased chosen name, get-or-create the
`Album` under the lower-cased formatted album title, and append the track to
that album.  (The write-backs model the in-place mutation of the shared
objects.) -/
def addTrackToLibrary (artists : List (Name × Artist)) (t : Track) : List (Name × Artist) :=
  let album' := { albumFor artists t with tracks := (albumFor artists t).tracks ++ [t] }
  assocSet (artistKeyOf t) ((artistFor artists t).add_album album') artists

/-- The artist/album side of `__aggregate_albums` over a whole catalog feed. -/
def aggregateArtists (ts : List Track) : List (Name × Artist) :=
  ts.foldl addTrackToLibrary []

/-- The track list of the album filed under artist key `ka` and album key `kb`
(empty when either bucket is absent). -/
def albumTracksIn (artists : List (Name × Artist)) (ka kb : Name) : List Track :=
  match assocGet ka artists with
  | none => []
  | some ar =>
    match assocGet kb ar.albums with
    | none => []
    | some al => al.tracks

/-- The `MusicLibrary` state the FUSE layer reads: artist buckets, playlists
keyed by lower-cased dirname, the track-id map, the `true_file_size` option,
and the collaborator interfaces (content length reported by a HEAD probe per
URL, and the stream-URL issuer). -/
structure MusicLibrary where
  artists : List (Name × Artist)
  playlists : List (Name × Playlist)
  tracks : List (Name × Track)
  true_file_size : Bool
  net : Name → Option Int
  streamUrl : Name → Name

/-- `MusicLibrary.get_artist` (lines 315-317): `self.__artists.get(name.lower(), None)`. -/
def MusicLibrary.get_artist (lib : MusicLibrary) (name : Name) : Option Artist :=
  assocGet (pyLower name) lib.artists

/-- `MusicLibrary.get_playlist` (lines 323-325): `self.__playlists.get(name.lower(), None)`. -/
def MusicLibrary.get_playlist (lib : MusicLibrary) (name : Name) : Option Playlist :=
  assocGet (pyLower name) lib.playlists

/-- `Album.get_cover_size` (lines 173-180): with `true_file_size` make a HEAD
probe against the cover URL (`urllib2.Request(None)` blows up when the album
has no cover URL; a failed probe raises `URLError`); without it return `None`. -/
def Album.get_cover_size (a : Album) (true_file_size : Bool) (net : Name → Option Int) :
    Except PyErr (Option Int) :=
  if true_file_size then
    match a.get_cover_url with
    | none => .error .attributeError
    | some u =>
      match net u with
      | some n => .ok (some n)
      | none => .error .urlError
  else .ok none

/-- The match target of the six anchored path regexes (lines 341-350) plus the
three literal comparisons of `getattr`.  The shapes are structurally disjoint,
so at most one matches any path. -/
inductive PathTarget where
  | root
  | artistsRoot
  | playlistsRoot
  | artistDir (artist : Name)
  | albumDir (artist year album : Name)
  | trackFile (artist year album trackfile : Name)
  | imageFile (artist year album imagefile : Name)
  | playlistDir (playlist : Name)
  | playlistTrackFile (playlist trackfile : Name)
  | noMatch
deriving DecidableEq, Repr

/-- Match of a final path component against `[^/]+\.mp3$` (or `.jpg`): the
component (after the `$` newline tolerance) must end with the literal suffix
with at least one character before it; the captured group is the whole
component. -/
def suffixGroup (suffix : Name) (f : Name) : Option Name :=
  let core := dollarStrip f
  if core.length ≥ suffix.length + 1 ∧ core.drop (core.length - suffix.length) = suffix then
    some core
  else none

/-- Match of a component against `([0-9]{4}) - ([^/]+)`: exactly four digits,
the literal `' - '`, then a non-empty remainder (the album group). -/
def parseYearAlbum (s : Name) : Option (Name × Name) :=
  let y := s.take 4
  if y.length = 4 ∧ y.all isDigitChar ∧ (s.drop 4).take 3 = " - ".data ∧ s.drop 7 ≠ [] then
    some (y, s.drop 7)
  else none

/-- Classify the `'/'`-separated components of a path against the grammar of
lines 341-350.  A leading empty component encodes the mandatory leading
slash. -/
def classifyParts : List Name → PathTarget
  | [[], []] => .root
  | [[], seg] =>
    if seg = "artists".data then .artistsRoot
    else if seg = "playlists".data then .playlistsRoot
    else .noMatch
  | [[], seg, a] =>
    if seg = "artists".data ∧ a ≠ [] then .artistDir a
    else if seg = "playlists".data ∧ a ≠ [] then .playlistDir a
    else .noMatch
  | [[], seg, a, x] =>
    if seg = "artists".data ∧ a ≠ [] then
      match parseYearAlbum x with
      | some (y, alb) => .albumDir a y alb
      | none => .noMatch
    else if seg = "playlists".data ∧ a ≠ [] then
      match suffixGroup ".mp3".data x with
      | some tf => .playlistTrackFile a tf
      | none => .noMatch
    else .noMatch
  | [[], seg, a, x, f] =>
    if seg = "artists".data ∧ a ≠ [] then
      match parseYearAlbum x with
      | some (y, alb) =>
        match suffixGroup ".mp3".data f with
        | some tf => .trackFile a y alb tf
        | none =>
          match suffixGroup ".jpg".data f with
          | some im => .imageFile a y alb im
          | none => .noMatch
      | none => .noMatch
    else .noMatch
  | _ => .noMatch

/-- Path classification: split on `'/'` and classify the components. -/
def classifyPath (p : Name) : PathTarget := classifyParts (p.splitOn '/')

/-- The `stat` dictionaries `getattr` returns: only the keys the source
actually sets (the directory default sets mode, nlink and the three times;
`track_to_stat` would set mode, size and times; the image branch sets mode and
size only). -/
structure StatDict where
  st_mode : Nat
  st_nlink : Option Nat
  st_size : Option Int
  st_ctime : Option Int
  st_mtime : Option Int
  st_atime : Option Int
deriving DecidableEq, Repr

/-- The default directory stat of `getattr` (lines 392-396):
`S_IFDIR | 0755` = 16877, two links, epoch-zero times. -/
def dirStat : StatDict :=
  { st_mode := 16877, st_nlink := some 2, st_size := none,
    st_ctime := some 0, st_mtime := some 0, st_atime := some 0 }

/-- `GMusicFS.track_to_stat` (lines 368-380).  The code sets
`st['st_mode']`, then `st['st_size'] = int(track['estimatedSize'])` — a
`TypeError` when `track` is `None` — and then evaluates `'bytes' in t` where
`t` is an unbound name, an unconditional `NameError` for every real track: the
function can never return. -/
def track_to_stat (track : Option Track) : Except PyErr StatDict :=
  match track with
  | none => .error .typeError
  | some _ => .error .nameError

/-- `S_IFREG | 0444` = 33060, the read-only regular-file mode. -/
def regStatMode : Nat := 33060

/-- `GMusicFS.getattr` (lines 382-434): directory-shaped matches (known or
not) return the default directory stat; track shapes resolve
artist → album → track and call `track_to_stat`; image shapes resolve the
album and build a mode/size dict (placeholder size 10000000 when the probe is
off); playlist-track shapes resolve the playlist and its track; everything
unmatched raises `FuseOSError(ENOENT)`.  A failed entity lookup returns
`None`, and the following attribute access or subscript raises. -/
def GMusicFS.getattr (lib : MusicLibrary) (p : Name) : Except PyErr StatDict :=
  match classifyPath p with
  | .root | .artistsRoot | .playlistsRoot | .artistDir _ | .albumDir _ _ _ | .playlistDir _ =>
    .ok dirStat
  | .trackFile a _ alb tf =>
    match lib.get_artist a with
    | none => .error .attributeError
    | some ar =>
      match ar.get_album alb with
      | none => .error .attributeError
      | some al => track_to_stat (al.get_track tf)
  | .imageFile a _ alb _ =>
    match lib.get_artist a with
    | none => .error .attributeError
    | some ar =>
      match ar.get_album alb with
      | none => .error .attributeError
      | some al =>
        match al.get_cover_size lib.true_file_size lib.net with
        | .error e => .error e
        | .ok cs =>
          .ok { st_mode := regStatMode, st_nlink := none,
                st_size := some (cs.getD 10000000),
                st_ctime := none, st_mtime := none, st_atime := none }
  | .playlistTrackFile pl tf =>
    match lib.get_playlist pl with
    | none => .error .attributeError
    | some p' =>
      match p'.get_track tf with
      | .error e => .error e
      | .ok tOpt => track_to_stat tOpt
  | .noMatch => .error .enoent

/-- `GMusicFS.open` (lines 436-465), up to the stream request: resolve the
path to the URL that will be opened.  Unknown entities surface as
`AttributeError`/`TypeError`/`KeyError` exactly as the attribute accesses and
subscripts fail; for a path matching no file shape the `RuntimeError` is
constructed but never raised, and the following `urlopen(url)` hits the
unbound local `url` — a `NameError`. -/
def GMusicFS.open (lib : MusicLibrary) (p : Name) : Except PyErr Name :=
  match classifyPath p with
  | .trackFile a _ alb tf =>
    match lib.get_artist a with
    | none => .error .attributeError
    | some ar =>
      match ar.get_album alb with
      | none => .error .attributeError
      | some al =>
        match al.get_track tf with
        | none => .error .typeError
        | some tr =>
          match tr.id with
          | none => .error .keyError
          | some i => .ok (lib.streamUrl i)
  | .imageFile a _ alb _ =>
    match lib.get_artist a with
    | none => .error .attributeError
    | some ar =>
      match ar.get_album alb with
      | none => .error .attributeError
      | some al =>
        match al.get_cover_url with
        | none => .error .attributeError
        | some u => .ok u
  | .playlistTrackFile pl tf =>
    match lib.get_playlist pl with
    | none => .error .attributeError
    | some p' =>
      match p'.get_track tf with
      | .error e => .error e
      | .ok none => .error .typeError
      | .ok (some tr) =>
        match tr.id with
        | none => .error .keyError
        | some i => .ok (lib.streamUrl i)
  | _ => .error .nameError

/-- An open streaming session: the declared `Content-Length` header, the not
yet consumed bytes of the sequential body, and the `bytes_read` counter set up
by `open`. -/
structure OpenStream where
  contentLength : Int
  remaining : List Nat
  bytes_read : Int
deriving DecidableEq, Repr

/-- A Python file-like `read(n)` against the sequential remote stream: a
negative `n` reads everything remaining, otherwise up to `n` bytes. -/
def httpRead (remaining : List Nat) (n : Int) : List Nat × List Nat :=
  if n < 0 then (remaining, [])
  else (remaining.take n.toNat, remaining.drop n.toNat)

/-- `struct.pack`'s `'Ns'` field: the byte string truncated or NUL-padded to
exactly `width` bytes. -/
def packField (width : Nat) (s : Name) : List Nat :=
  (s.map Char.toNat).take width ++ List.replicate (width - s.length) 0

/-- The synthesized ID3v1 trailer of `read` (lines 483-485):
`struct.pack("!3s30s30s30s4s30sb", 'TAG', title, artist, album, str(0),
comment, 12)` — 128 bytes, genre byte fixed to 12. -/
def id3v1Tag (t : Track) : List Nat :=
  packField 3 "TAG".data ++ packField 30 t.title ++ packField 30 t.artist ++
    packField 30 t.album ++ packField 4 "0".data ++ packField 30 t.comment ++ [12]

/-- `GMusicFS.read` (lines 473-496): a missing handle is a `RuntimeError`; on
an artists-hierarchy track path with `Content-Length < offset + size`
(strictly), read `size - 128` bytes (a negative amount reads to EOF) and
append the synthesized trailer, re-resolving the track from the path to build
it; otherwise, and on every other path shape, read `size` bytes.  `bytes_read`
grows by `size` either way. -/
def GMusicFS.read (lib : MusicLibrary) (p : Name) (size : Nat) (offset : Nat)
    (u : Option OpenStream) : Except PyErr (List Nat × OpenStream) :=
  match u with
  | none => .error .runtimeError
  | some u =>
    let plain : Except PyErr (List Nat × OpenStream) :=
      let r := httpRead u.remaining (size : Int)
      .ok (r.1, { u with remaining := r.2, bytes_read := u.bytes_read + size })
    match classifyPath p with
    | .trackFile a _ alb tf =>
      if u.contentLength < (offset : Int) + (size : Int) then
        match lib.get_artist a with
        | none => .error .attributeError
        | some ar =>
          match ar.get_album alb with
          | none => .error .attributeError
          | some al =>
            match al.get_track tf with
            | none => .error .typeError
            | some tr =>
              let r := httpRead u.remaining ((size : Int) - 128)
              .ok (r.1 ++ id3v1Tag tr,
                   { u with remaining := r.2, bytes_read := u.bytes_read + size })
      else plain
    | _ => plain

/-- The error conditions of credential loading: `NoCredentialException`
(missing file, unprotected file, empty fields) versus the `ConfigParser`'s own
`NoOptionError` for a key absent from the file. -/
inductive CredErr where
  | noCredential
  | noOption (key : Name)
deriving DecidableEq, Repr

/-- The on-disk credential file: whether `os.path.isfile` sees it, its
`st_mode`, and the key/value options of its `[credentials]` section. -/
structure CredFile where
  isFile : Bool
  st_mode : Nat
  options : List (Name × Name)

/-- Python 2 `oct(n)` digits, least significant first (fuel-driven). -/
def octRev : Nat → Nat → Name
  | 0, _ => []
  | fuel + 1, n =>
    if n < 8 then [digitChar n] else digitChar (n % 8) :: octRev fuel (n / 8)

/-- Python 2 `oct(n)`: `'0'` for zero, else a leading `'0'` followed by the
octal digits, most significant first. -/
def pyOct (n : Nat) : Name :=
  if n = 0 then ['0'] else '0' :: (octRev (n + 1) n).reverse

/-- `s.endswith('00')`. -/
def endsWith00 (s : Name) : Bool := s.reverse.take 2 = ['0', '0']

/-- `ConfigParser.get('credentials', key)`: raises `NoOptionError` when the
key is absent. -/
def configGet (f : CredFile) (key : Name) : Except CredErr Name :=
  match assocGet key f.options with
  | some v => .ok v
  | none => .error (.noOption key)

/-- The credentials `__login_and_setup` ends up with. -/
structure Credentials where
  username : Name
  password : Name
  deviceId : Name
deriving DecidableEq, Repr

/-- The credential-file path of `__login_and_setup` (lines 232-259): missing
file → `NoCredentialException`; `oct(st_mode)` not ending in `'00'` →
`NoCredentialException`; each field read through `ConfigParser.get` (which
raises its own error when the key is absent); empty username/password →
`NoCredentialException`; empty deviceId → `NoCredentialException`; a `0x`
prefix on the deviceId is stripped. -/
def credsFromConfig (f : CredFile) : Except CredErr Credentials :=
  if ¬ f.isFile then .error .noCredential
  else if ¬ endsWith00 (pyOct f.st_mode) then .error .noCredential
  else
    match configGet f "username".data with
    | .error e => .error e
    | .ok u =>
      match configGet f "password".data with
      | .error e => .error e
      | .ok p =>
        match configGet f "deviceId".data with
        | .error e => .error e
        | .ok d =>
          if u = [] ∨ p = [] then .error .noCredential
          else if d = [] then .error .noCredential
          else .ok ⟨u, p, if d.take 2 = "0x".data then d.drop 2 else d⟩

/-- The network calls `__login_and_setup` can make: the `api.login` at line
263, which follows all credential checks. -/
inductive NetCall where
  | apiLogin
deriving DecidableEq, Repr

/-- Python truthiness of an optional string parameter. -/
def pyTruthy (s : Option Name) : Bool :=
  match s with
  | none => false
  | some v => v ≠ []

/-- `MusicLibrary.__login_and_setup` (lines 230-264): when username and
password are both supplied non-empty, skip the file and log in; otherwise read
the credential file, and only on success reach the `api.login` network call.
The second component is the trace of network calls made. -/
def login_and_setup (username password : Option Name) (f : CredFile) :
    Except CredErr Credentials × List NetCall :=
  if pyTruthy username ∧ pyTruthy password then
    (.ok ⟨username.getD [], password.getD [], []⟩, [.apiLogin])
  else
    match credsFromConfig f with
    | .error e => (.error e, [])
    | .ok c => (.ok c, [.apiLogin])

deriving instance DecidableEq for Except

/-! ### Concrete catalog data used to evaluate the model -/

/-- A playlist track with track number 9 (listed first). -/
def trackA9 : Track := ⟨"ta".data, "aa".data, [], "ba".data, 9, none, 100, none, none, none, [], some "ida".data, []⟩

/-- A playlist track with track number 1 (listed second). -/
def trackB1 : Track := ⟨"tb".data, "ab".data, [], "bb".data, 1, none, 200, none, none, none, [], some "idb".data, []⟩

/-- A playlist whose server order is [trackA9, trackB1], against their own
track numbers. -/
def playlistC7 : Playlist := ⟨"pl".data, [trackA9, trackB1]⟩

/-- Track number 2, fed to the aggregator first. -/
def trackN2 : Track := ⟨"b".data, "ar".data, [], "al".data, 2, none, 100, none, none, none, [], some "id2".data, []⟩

/-- Track number 1, fed to the aggregator second. -/
def trackN1 : Track := ⟨"a".data, "ar".data, [], "al".data, 1, none, 100, none, none, none, [], some "id1".data, []⟩

/-- An album whose tracks arrived out of track-number order and have no cover
URL. -/
def albumC8 : Album := ⟨"al".data, [trackN2, trackN1]⟩

/-- `trackN2` with a cover-art URL. -/
def trackN2c : Track := ⟨"b".data, "ar".data, [], "al".data, 2, none, 100, none, none, none, [], some "id2".data, ["http://cover".data]⟩

/-- `albumC8` with a cover URL on its first track. -/
def albumC8cover : Album := ⟨"al".data, [trackN2c, trackN1]⟩

/-- First of two same-titled tracks in one album. -/
def trackX1 : Track := ⟨"x".data, "ar".data, [], "al".data, 1, none, 100, none, none, none, [], some "idx1".data, []⟩

/-- Second of two same-titled tracks in one album. -/
def trackX2 : Track := ⟨"x".data, "ar".data, [], "al".data, 2, none, 100, none, none, none, [], some "idx2".data, []⟩

/-- An album holding two tracks that render identical title parts. -/
def albumC4dup : Album := ⟨"al".data, [trackX1, trackX2]⟩

/-- A minimal track carrying only a year and a track number. -/
def trackY (yr : Option Int) (tn : Nat) : Track :=
  ⟨"t".data, "ar".data, [], "al".data, tn, yr, 0, none, none, none, [], none, []⟩

/-- Two tracks, years 2001 then 2000 in insertion order, one occurrence each. -/
def albumYearsTie : Album := ⟨"al".data, [trackY (some 2001) 1, trackY (some 2000) 2]⟩

/-- Three tracks with years 2000, 2000, 2001. -/
def albumYears3 : Album :=
  ⟨"al".data, [trackY (some 2000) 1, trackY (some 2000) 2, trackY (some 2001) 3]⟩

/-- An album with no track years. -/
def albumYearsNone : Album := ⟨"al".data, [trackY none 1]⟩

/-- A track with a non-empty album-artist differing from its artist. -/
def trk6a : Track := ⟨"s1".data, "Art1".data, "AA".data, "AL".data, 1, none, 0, none, none, none, [], none, []⟩

/-- A track whose album-artist and album title match `trk6a`'s up to case. -/
def trk6b : Track := ⟨"s2".data, "Art2".data, "aa".data, "al".data, 2, none, 0, none, none, none, [], none, []⟩

/-- The one track of the streaming test library. -/
def trkC1 : Track := ⟨"t".data, "Art".data, [], "B".data, 1, none, 100, none, none, none, "cmt".data, some "idc".data, []⟩

/-- Its album. -/
def albC1 : Album := ⟨"B".data, [trkC1]⟩

/-- Its artist, holding the album under the lower-cased normalized title. -/
def artC1 : Artist := ⟨"A".data, [("b".data, albC1)]⟩

/-- A library with one artist/album/track and no playlists. -/
def libC1 : MusicLibrary := ⟨[("a".data, artC1)], [], [], false, fun _ => none, fun n => n⟩

/-- The virtual path of `trkC1`. -/
def pathC1 : Name := "/artists/A/2000 - B/001 - t.mp3".data

/-- An open stream declaring 300 content bytes with 130 still unread. -/
def streamC1 : OpenStream := ⟨300, List.replicate 130 7, 0⟩

/-- A library with an empty catalog. -/
def emptyLib : MusicLibrary := ⟨[], [], [], false, fun _ => none, fun n => n⟩

/-- A library with no artists but one playlist, keyed by its lower-cased
dirname. -/
def libPl : MusicLibrary := ⟨[], [("pl".data, playlistC7)], [], false, fun _ => none, fun n => n⟩

/-! ### Character-level facts -/

theorem charOfNat_toNat {n : Nat} (h : n < 55296) : (Char.ofNat n).toNat = n := by
  have hv : n.isValidChar := Or.inl h
  simp only [Char.ofNat, dif_pos hv, Char.ofNatAux, Char.toNat]
  rfl

theorem lowerChar_toNat_of_upper {c : Char} (h : 65 ≤ c.toNat ∧ c.toNat ≤ 90) :
    (lowerChar c).toNat = c.toNat + 32 := by
  unfold lowerChar
  rw [if_pos h]
  exact charOfNat_toNat (by omega)

theorem lowerChar_eq_self {c : Char} (h : ¬(65 ≤ c.toNat ∧ c.toNat ≤ 90)) :
    lowerChar c = c := by
  unfold lowerChar
  rw [if_neg h]

theorem lowerChar_eq_nonletter {c d : Char} (h1 : ¬(65 ≤ d.toNat ∧ d.toNat ≤ 90))
    (h2 : ¬(97 ≤ d.toNat ∧ d.toNat ≤ 122)) : lowerChar c = d ↔ c = d := by
  by_cases hu : 65 ≤ c.toNat ∧ c.toNat ≤ 90
  · constructor
    · intro he
      have ht := lowerChar_toNat_of_upper hu
      rw [he] at ht
      exact absurd (by omega : 97 ≤ d.toNat ∧ d.toNat ≤ 122) h2
    · intro he
      subst he
      exact absurd hu h1
  · rw [lowerChar_eq_self hu]

theorem lowerChar_idem (c : Char) : lowerChar (lowerChar c) = lowerChar c := by
  by_cases hu : 65 ≤ c.toNat ∧ c.toNat ≤ 90
  · have h := lowerChar_toNat_of_upper hu
    exact lowerChar_eq_self (by omega)
  · rw [lowerChar_eq_self hu]
    exact lowerChar_eq_self hu

theorem lowerChar_slashToDash (c : Char) :
    lowerChar (slashToDash c) = slashToDash (lowerChar c) := by
  by_cases hs : c = '/'
  · subst hs
    decide
  · have h1 : slashToDash c = c := by simp [slashToDash, hs]
    have h2 : lowerChar c ≠ '/' := fun he =>
      hs ((lowerChar_eq_nonletter (by decide) (by decide)).mp he)
    rw [h1]
    simp [slashToDash, h2]

theorem pyLower_idem (s : Name) : pyLower (pyLower s) = pyLower s := by
  unfold pyLower
  rw [List.map_map]
  exact List.map_congr_left (fun a _ => lowerChar_idem a)

theorem pyLower_formatNames (s : Name) : pyLower (formatNames s) = formatNames (pyLower s) := by
  unfold pyLower formatNames
  rw [List.map_map, List.map_map]
  exact List.map_congr_left (fun a _ => lowerChar_slashToDash a)

theorem pyLower_applyCase (lc : Bool) (s : Name) : pyLower (applyCase lc s) = pyLower s := by
  cases lc
  · rfl
  · simp [applyCase, pyLower_idem]

theorem newline_notMem_pyLower {s : Name} (h : '\n' ∉ s) : '\n' ∉ pyLower s := by
  intro hmem
  rcases List.mem_map.mp hmem with ⟨c, hc, he⟩
  have hcn : c = '\n' := (lowerChar_eq_nonletter (by decide) (by decide)).mp he
  exact h (hcn ▸ hc)

theorem newline_notMem_applyCase {s : Name} (lc : Bool) (h : '\n' ∉ s) :
    '\n' ∉ applyCase lc s := by
  cases lc
  · exact h
  · exact newline_notMem_pyLower h

theorem isDigitChar_digitChar {d : Nat} (h : d < 10) : isDigitChar (digitChar d) = true := by
  unfold isDigitChar digitChar
  rw [charOfNat_toNat (by omega)]
  simp only [Bool.and_eq_true, decide_eq_true_eq]
  omega

/-! ### Decimal rendering facts -/

theorem decDigitsCore_digits {fuel n : Nat} :
    ∀ c ∈ decDigitsCore fuel n, isDigitChar c = true := by
  induction fuel generalizing n with
  | zero => intro c hc; simp [decDigitsCore] at hc
  | succ fuel ih =>
    intro c hc
    unfold decDigitsCore at hc
    by_cases hn : n < 10
    · rw [if_pos hn] at hc
      simp at hc
      exact hc ▸ isDigitChar_digitChar hn
    · rw [if_neg hn] at hc
      rcases List.mem_append.mp hc with h | h
      · exact ih c h
      · simp at h
        exact h ▸ isDigitChar_digitChar (Nat.mod_lt _ (by omega))

theorem decDigitsCore_ne_nil {fuel n : Nat} (h : 0 < fuel) : decDigitsCore fuel n ≠ [] := by
  cases fuel with
  | zero => omega
  | succ fuel =>
    unfold decDigitsCore
    by_cases hn : n < 10
    · simp [hn]
    · rw [if_neg hn]
      simp

theorem pad3_digits (n : Nat) : ∀ c ∈ pad3 n, isDigitChar c = true := by
  intro c hc
  unfold pad3 at hc
  rcases List.mem_append.mp hc with h | h
  · have := List.eq_of_mem_replicate h
    subst this
    decide
  · exact decDigitsCore_digits c h

theorem pad3_ne_nil (n : Nat) : pad3 n ≠ [] := by
  unfold pad3
  intro h
  rcases List.append_eq_nil.mp h with ⟨_, h2⟩
  exact decDigitsCore_ne_nil (by omega) h2

/-! ### `takeWhile` and parsing helpers -/

theorem takeWhile_append_stop {p : Char → Bool} (d r : Name) (x : Char)
    (hd : ∀ c ∈ d, p c = true) (hx : p x = false) :
    (d ++ x :: r).takeWhile p = d := by
  induction d with
  | nil => simp [List.takeWhile_cons, hx]
  | cons c cs ih =>
    have hc := hd c (List.mem_cons_self c cs)
    simp [List.takeWhile_cons, hc, ih (fun a ha => hd a (List.mem_cons_of_mem _ ha))]

/-- The filenames `readdir`'s album branch renders: digits, `' - '`, title,
`.mp3`. -/
def mkAlbumFilename (d t : Name) : Name := d ++ " - ".data ++ t ++ ".mp3".data

theorem renderAlbumEntry_eq_mk (lc : Bool) (t : Track) :
    renderAlbumEntry lc t = mkAlbumFilename (pad3 t.trackNumber) (applyCase lc (formatNames t.title)) := rfl

theorem parseAlbumFilename_mk {d t : Name} (hd1 : d ≠ []) (hd2 : ∀ c ∈ d, isDigitChar c = true)
    (ht : '\n' ∉ t) : parseAlbumFilename (mkAlbumFilename d t) = some t := by
  have hshape : mkAlbumFilename d t = d ++ (' ' :: '-' :: ' ' :: (t ++ ".mp3".data)) := by
    unfold mkAlbumFilename
    simp [List.append_assoc]
  have hlast : (mkAlbumFilename d t).getLast? = some '3' := by
    unfold mkAlbumFilename
    rw [List.getLast?_append]
    rfl
  have hstrip : dollarStrip (mkAlbumFilename d t) = mkAlbumFilename d t := by
    unfold dollarStrip
    rw [hlast, if_neg (by decide)]
  have hnl : ¬ ('\n' ∈ mkAlbumFilename d t) := by
    rw [hshape]
    intro hmem
    rcases List.mem_append.mp hmem with h | h
    · exact absurd (hd2 _ h) (by decide)
    · rcases List.mem_cons.mp h with h | h
      · exact absurd h (by decide)
      · rcases List.mem_cons.mp h with h | h
        · exact absurd h (by decide)
        · rcases List.mem_cons.mp h with h | h
          · exact absurd h (by decide)
          · rcases List.mem_append.mp h with h' | h'
            · exact ht h'
            · exact absurd h' (by decide)
  have htw : (mkAlbumFilename d t).takeWhile isDigitChar = d := by
    rw [hshape]
    exact takeWhile_append_stop d _ ' ' hd2 (by decide)
  unfold parseAlbumFilename
  rw [hstrip, if_neg hnl, htw, if_neg hd1]
  rw [hshape, List.drop_left]
  have h3 : (' ' :: '-' :: ' ' :: (t ++ ".mp3".data)).take 3 = " - ".data := rfl
  rw [h3, if_pos rfl]
  have hdrop3 : (' ' :: '-' :: ' ' :: (t ++ ".mp3".data)).drop 3 = t ++ ".mp3".data := rfl
  rw [hdrop3]
  have hlen : (t ++ ".mp3".data).length = t.length + 4 := by
    simp
  have hcond : (t ++ ".mp3".data).length ≥ 4 ∧
      (t ++ ".mp3".data).drop ((t ++ ".mp3".data).length - 4) = ".mp3".data := by
    constructor
    · omega
    · rw [hlen]
      have : t.length + 4 - 4 = t.length := by omega
      rw [this, List.drop_left]
  rw [if_pos hcond]
  rw [hlen]
  have : t.length + 4 - 4 = t.length := by omega
  rw [this, List.take_left]

/-! ### Stable-sort facts -/

theorem stableInsert_of_lt_false {α : Type} (lt : α → α → Bool) (x : α) (l : List α)
    (h : ∀ y, lt y x = false) : stableInsert lt x l = x :: l := by
  cases l with
  | nil => rfl
  | cons y ys => simp [stableInsert, h y]

theorem stableSort_of_lt_false {α : Type} (lt : α → α → Bool)
    (h : ∀ x y, lt x y = false) (l : List α) : stableSort lt l = l := by
  induction l with
  | nil => rfl
  | cons x xs ih =>
    rw [stableSort, ih, stableInsert_of_lt_false lt x xs (fun y => h y x)]

theorem Album.get_tracks_eq (a : Album) : a.get_tracks = a.tracks :=
  stableSort_of_lt_false _ (fun _ _ => rfl) a.tracks

theorem length_stableInsert {α : Type} (lt : α → α → Bool) (x : α) (l : List α) :
    (stableInsert lt x l).length = l.length + 1 := by
  induction l with
  | nil => rfl
  | cons y ys ih =>
    by_cases hlt : lt y x = true
    · simp [stableInsert, hlt, ih]
    · simp [stableInsert, hlt]

theorem length_stableSort {α : Type} (lt : α → α → Bool) (l : List α) :
    (stableSort lt l).length = l.length := by
  induction l with
  | nil => rfl
  | cons x xs ih =>
    rw [stableSort, length_stableInsert, ih]
    simp

theorem mem_stableInsert {α : Type} (lt : α → α → Bool) (x a : α) (l : List α) :
    a ∈ stableInsert lt x l ↔ a = x ∨ a ∈ l := by
  induction l with
  | nil => simp [stableInsert]
  | cons y ys ih =>
    rw [stableInsert]
    by_cases hlt : lt y x = true
    · rw [if_pos hlt]
      simp only [List.mem_cons, ih]
      tauto
    · rw [if_neg hlt]
      simp only [List.mem_cons]

theorem mem_stableSort {α : Type} (lt : α → α → Bool) (a : α) (l : List α) :
    a ∈ stableSort lt l ↔ a ∈ l := by
  induction l with
  | nil => simp [stableSort]
  | cons x xs ih => simp [stableSort, mem_stableInsert, ih]

theorem stableSort_count_head_max (l : List (Int × Nat)) (q : Int × Nat)
    (hq : (stableSort (fun p1 p2 : Int × Nat => p2.2 < p1.2) l).head? = some q) :
    ∀ x ∈ l, x.2 ≤ q.2 := by
  induction l generalizing q with
  | nil => simp [stableSort] at hq
  | cons x xs ih =>
    rw [stableSort] at hq
    cases hs : stableSort (fun p1 p2 : Int × Nat => p2.2 < p1.2) xs with
    | nil =>
      rw [hs] at hq
      have hxs : xs = [] := by
        have hl := length_stableSort (fun p1 p2 : Int × Nat => p2.2 < p1.2) xs
        rw [hs] at hl
        exact List.length_eq_zero.mp hl.symm
      have hq' : x = q := by
        rw [stableInsert] at hq
        rw [List.head?_cons, Option.some_inj] at hq
        exact hq
      intro z hz
      rcases List.mem_cons.mp hz with hz | hz
      · rw [hz, ← hq']
      · rw [hxs] at hz
        simp at hz
    | cons y ys =>
      rw [hs] at hq
      have hheadxs : (stableSort (fun p1 p2 : Int × Nat => p2.2 < p1.2) xs).head? = some y := by
        rw [hs, List.head?_cons]
      by_cases hlt : x.2 < y.2
      · rw [stableInsert, if_pos (by simpa using hlt)] at hq
        rw [List.head?_cons, Option.some_inj] at hq
        intro z hz
        rcases List.mem_cons.mp hz with hz | hz
        · rw [hz, ← hq]
          omega
        · exact ih q (by rw [hheadxs, hq]) z hz
      · rw [stableInsert, if_neg (by simpa using hlt)] at hq
        rw [List.head?_cons, Option.some_inj] at hq
        intro z hz
        rcases List.mem_cons.mp hz with hz | hz
        · rw [hz, ← hq]
        · have := ih y hheadxs z hz
          rw [← hq]
          omega

theorem stableSort_count_head_mem (l : List (Int × Nat)) (q : Int × Nat)
    (hq : (stableSort (fun p1 p2 : Int × Nat => p2.2 < p1.2) l).head? = some q) : q ∈ l := by
  cases hs : stableSort (fun p1 p2 : Int × Nat => p2.2 < p1.2) l with
  | nil => rw [hs] at hq; simp at hq
  | cons y ys =>
    rw [hs, List.head?_cons, Option.some_inj] at hq
    have hmem : q ∈ stableSort (fun p1 p2 : Int × Nat => p2.2 < p1.2) l := by
      rw [hs, ← hq]
      exact List.mem_cons_self _ _
    exact (mem_stableSort _ _ _).mp hmem

/-! ### `find?` under an injective rendering -/

theorem find?_map_nodup {α β : Type} [DecidableEq β] (f : α → β) (l : List α) (T : α)
    (hT : T ∈ l) (hnd : (l.map f).Nodup) :
    l.find? (fun x => f x == f T) = some T := by
  induction l with
  | nil => simp at hT
  | cons h hs ih =>
    rcases List.mem_cons.mp hT with hT | hT
    · subst hT
      rw [List.find?_cons_of_pos _ (by simp)]
    · have hnd' : f h ∉ hs.map f ∧ (hs.map f).Nodup := by
        rw [List.map_cons] at hnd
        exact List.nodup_cons.mp hnd
      have hfT : f T ∈ hs.map f := List.mem_map_of_mem f hT
      have hne : (f h == f T) = false := by
        simp only [beq_eq_false_iff_ne, ne_eq]
        intro he
        exact hnd'.1 (he ▸ hfT)
      rw [List.find?_cons_of_neg _ (by simp [hne])]
      exact ih hT hnd'.2

/-! ### Association-list facts -/

theorem assocGet_eq_some {V : Type} {key : Name} {l : List (Name × V)} {v : V}
    (h : assocGet key l = some v) : (key, v) ∈ l := by
  unfold assocGet at h
  cases hf : l.find? (fun kv => kv.1 == key) with
  | none =>
    rw [hf] at h
    exact absurd h (by simp)
  | some kv =>
    rw [hf] at h
    simp only [Option.map_some', Option.some_inj] at h
    have hm := List.mem_of_find?_eq_some hf
    have hp := List.find?_some hf
    simp only [beq_iff_eq] at hp
    cases kv with
    | mk k1 v1 =>
      simp only at hp h
      rw [← hp, ← h]
      exact hm

theorem assocGet_assocSet_same {V : Type} (key : Name) (v : V) (l : List (Name × V)) :
    assocGet key (assocSet key v l) = some v := by
  induction l with
  | nil =>
    unfold assocSet assocGet
    rw [List.find?_cons_of_pos _ (by simp)]
    rfl
  | cons kv rest ih =>
    rw [assocSet]
    by_cases hk : kv.1 = key
    · rw [if_pos hk]
      unfold assocGet
      rw [List.find?_cons_of_pos _ (by simp)]
      rfl
    · rw [if_neg hk]
      unfold assocGet at ih ⊢
      rw [List.find?_cons_of_neg _ (by simp [hk])]
      exact ih

theorem assocGet_assocSet_ne {V : Type} {k' : Name} (key : Name) (v : V) (l : List (Name × V))
    (h : k' ≠ key) : assocGet k' (assocSet key v l) = assocGet k' l := by
  have hne : ((key, v).1 == k') = false := by
    simp only [beq_eq_false_iff_ne, ne_eq]
    exact fun he => h (Eq.symm he)
  induction l with
  | nil =>
    unfold assocSet assocGet
    rw [List.find?_cons_of_neg _ (by simp only [hne]; exact Bool.false_ne_true)]
  | cons kv rest ih =>
    rw [assocSet]
    by_cases hk : kv.1 = key
    · rw [if_pos hk]
      unfold assocGet
      rw [List.find?_cons_of_neg _ (by simp only [hne]; exact Bool.false_ne_true),
          List.find?_cons_of_neg _ (by rw [hk]; simp only [beq_iff_eq]; exact fun he => h (Eq.symm he))]
    · rw [if_neg hk]
      unfold assocGet at ih ⊢
      by_cases hkv : kv.1 = k'
      · rw [List.find?_cons_of_pos _ (by simp [hkv]), List.find?_cons_of_pos _ (by simp [hkv])]
      · rw [List.find?_cons_of_neg _ (by simp [hkv]), List.find?_cons_of_neg _ (by simp [hkv])]
        exact ih

theorem mem_assocSet {V : Type} {p : Name × V} {key : Name} {v : V} {l : List (Name × V)}
    (h : p ∈ assocSet key v l) : p ∈ l ∨ p = (key, v) := by
  induction l with
  | nil =>
    simp only [assocSet] at h
    right
    simpa using h
  | cons kv rest ih =>
    rw [assocSet] at h
    by_cases hk : kv.1 = key
    · rw [if_pos hk] at h
      rcases List.mem_cons.mp h with h | h
      · right; exact h
      · left; exact List.mem_cons_of_mem _ h
    · rw [if_neg hk] at h
      rcases List.mem_cons.mp h with h | h
      · left; rw [h]; exact List.mem_cons_self _ _
      · rcases ih h with h' | h'
        · left; exact List.mem_cons_of_mem _ h'
        · right; exact h'

/-! ### Aggregation invariant: every album is filed under its own
lower-cased normalized title -/

/-- In every artist bucket, an album's key is the lower-cased `normtitle` of
the album stored there (maintained by `Artist.add_album`). -/
def AlbumKeysConsistent (artists : List (Name × Artist)) : Prop :=
  ∀ ka ar, (ka, ar) ∈ artists → ∀ kb al, (kb, al) ∈ ar.albums → kb = pyLower al.normtitle

theorem albumKeysConsistent_addTrack {artists : List (Name × Artist)}
    (h : AlbumKeysConsistent artists) (t : Track) :
    AlbumKeysConsistent (addTrackToLibrary artists t) := by
  intro ka ar har kb al hal
  unfold addTrackToLibrary at har
  rcases mem_assocSet har with har | har
  · exact h ka ar har kb al hal
  · have har2 : ar = (artistFor artists t).add_album
        { albumFor artists t with tracks := (albumFor artists t).tracks ++ [t] } :=
      congrArg Prod.snd har
    rw [har2] at hal
    unfold Artist.add_album at hal
    simp only at hal
    rcases mem_assocSet hal with hal | hal
    · unfold artistFor at hal
      cases hg : assocGet (artistKeyOf t) artists with
      | none =>
        rw [hg] at hal
        simp [Option.getD] at hal
      | some ar0 =>
        rw [hg] at hal
        exact h _ ar0 (assocGet_eq_some hg) kb al hal
    · have h1 : kb = pyLower ({ albumFor artists t with
          tracks := (albumFor artists t).tracks ++ [t] } : Album).normtitle :=
        congrArg Prod.fst hal
      have h2 : al = { albumFor artists t with
          tracks := (albumFor artists t).tracks ++ [t] } := congrArg Prod.snd hal
      rw [h1, h2]

theorem pyLower_albumFor_normtitle {artists : List (Name × Artist)}
    (h : AlbumKeysConsistent artists) (t : Track) :
    pyLower (albumFor artists t).normtitle = pyLower (formatNames t.album) := by
  unfold albumFor
  cases hg : (artistFor artists t).get_album (formatNames t.album) with
  | none => rfl
  | some al0 =>
    show pyLower al0.normtitle = pyLower (formatNames t.album)
    unfold Artist.get_album at hg
    have hmem := assocGet_eq_some hg
    unfold artistFor at hmem
    cases hg2 : assocGet (artistKeyOf t) artists with
    | none =>
      rw [hg2] at hmem
      simp [Option.getD] at hmem
    | some ar0 =>
      rw [hg2] at hmem
      exact (h _ ar0 (assocGet_eq_some hg2) _ al0 hmem).symm

theorem addTrack_mem_self {artists : List (Name × Artist)}
    (h : AlbumKeysConsistent artists) (t : Track) :
    t ∈ albumTracksIn (addTrackToLibrary artists t) (artistKeyOf t)
      (pyLower (formatNames t.album)) := by
  have hkey : pyLower ({ albumFor artists t with
      tracks := (albumFor artists t).tracks ++ [t] } : Album).normtitle
      = pyLower (formatNames t.album) := pyLower_albumFor_normtitle h t
  unfold albumTracksIn addTrackToLibrary
  rw [assocGet_assocSet_same]
  unfold Artist.add_album
  simp only
  rw [← hkey, assocGet_assocSet_same]
  simp

theorem addTrack_mem_mono {artists : List (Name × Artist)}
    (h : AlbumKeysConsistent artists) (t' s : Track) (ka kb : Name)
    (hs : s ∈ albumTracksIn artists ka kb) :
    s ∈ albumTracksIn (addTrackToLibrary artists t') ka kb := by
  unfold albumTracksIn at hs ⊢
  unfold addTrackToLibrary
  by_cases hka : ka = artistKeyOf t'
  · subst hka
    rw [assocGet_assocSet_same]
    cases hg : assocGet (artistKeyOf t') artists with
    | none =>
      rw [hg] at hs
      simp at hs
    | some ar0 =>
      rw [hg] at hs
      have hs2 : s ∈ (match assocGet kb ar0.albums with
          | none => ([] : List Track)
          | some al => al.tracks) := hs
      have hart : artistFor artists t' = ar0 := by
        unfold artistFor
        rw [hg]
        rfl
      unfold Artist.add_album
      simp only
      by_cases hkb : kb = pyLower ({ albumFor artists t' with
          tracks := (albumFor artists t').tracks ++ [t'] } : Album).normtitle
      · rw [hkb, assocGet_assocSet_same]
        show s ∈ (albumFor artists t').tracks ++ [t']
        have hkeyfmt : pyLower ({ albumFor artists t' with
            tracks := (albumFor artists t').tracks ++ [t'] } : Album).normtitle
            = pyLower (formatNames t'.album) := pyLower_albumFor_normtitle h t'
        cases hg2 : (artistFor artists t').get_album (formatNames t'.album) with
        | none =>
          have hnone : assocGet kb ar0.albums = none := by
            rw [hkb, hkeyfmt, ← hart]
            unfold Artist.get_album at hg2
            exact hg2
          rw [hnone] at hs2
          simp at hs2
        | some al0 =>
          have hsome : assocGet kb ar0.albums = some al0 := by
            rw [hkb, hkeyfmt, ← hart]
            unfold Artist.get_album at hg2
            exact hg2
          rw [hsome] at hs2
          have halb : albumFor artists t' = al0 := by
            unfold albumFor
            rw [hg2]
            rfl
          rw [halb]
          exact List.mem_append_left _ hs2
      · rw [assocGet_assocSet_ne _ _ _ hkb, hart]
        exact hs2
  · rw [assocGet_assocSet_ne _ _ _ hka]
    exact hs

theorem foldl_addTrack_inv {ts : List Track} : ∀ {artists : List (Name × Artist)},
    AlbumKeysConsistent artists → AlbumKeysConsistent (ts.foldl addTrackToLibrary artists) := by
  induction ts with
  | nil => intro artists h; exact h
  | cons t ts ih => intro artists h; exact ih (albumKeysConsistent_addTrack h t)

theorem foldl_addTrack_mono {ts : List Track} : ∀ {artists : List (Name × Artist)},
    AlbumKeysConsistent artists → ∀ {s : Track} {ka kb : Name},
    s ∈ albumTracksIn artists ka kb →
    s ∈ albumTracksIn (ts.foldl addTrackToLibrary artists) ka kb := by
  induction ts with
  | nil => intro _ _ _ _ _ hs; exact hs
  | cons t ts ih =>
    intro artists h s ka kb hs
    exact ih (albumKeysConsistent_addTrack h t) (addTrack_mem_mono h t s ka kb hs)

theorem mem_foldl_addTrack {ts : List Track} {t : Track} (hT : t ∈ ts) :
    ∀ {artists : List (Name × Artist)}, AlbumKeysConsistent artists →
    t ∈ albumTracksIn (ts.foldl addTrackToLibrary artists) (artistKeyOf t)
      (pyLower (formatNames t.album)) := by
  induction ts with
  | nil => simp at hT
  | cons t' ts ih =>
    intro artists h
    rw [List.foldl_cons]
    rcases List.mem_cons.mp hT with hT | hT
    · subst hT
      exact foldl_addTrack_mono (albumKeysConsistent_addTrack h t)
        (addTrack_mem_self h t)
    · exact ih hT (albumKeysConsistent_addTrack h t')

theorem albumKeysConsistent_nil : AlbumKeysConsistent [] := by
  intro ka ar har
  simp at har

theorem mem_aggregateArtists {ts : List Track} {t : Track} (hT : t ∈ ts) :
    t ∈ albumTracksIn (aggregateArtists ts) (artistKeyOf t) (pyLower (formatNames t.album)) :=
  mem_foldl_addTrack hT albumKeysConsistent_nil

/-! ### Octal-rendering facts for the permission check -/

theorem octRev_head {fuel n : Nat} (hf : 0 < fuel) :
    (octRev fuel n).head? = some (digitChar (n % 8)) := by
  cases fuel with
  | zero => omega
  | succ fuel =>
    rw [octRev]
    by_cases hn : n < 8
    · rw [if_pos hn, Nat.mod_eq_of_lt hn]
      rfl
    · rw [if_neg hn]
      rfl

theorem digitChar_eq_zero_iff {d : Nat} (hd : d < 10) : digitChar d = '0' ↔ d = 0 := by
  constructor
  · intro h
    unfold digitChar at h
    have ht := congrArg Char.toNat h
    rw [charOfNat_toNat (by omega)] at ht
    have h0 : ('0' : Char).toNat = 48 := rfl
    rw [h0] at ht
    omega
  · intro h
    subst h
    rfl

/-- If `oct(n)` ends in `'00'` then the two low octal digits of `n` are zero,
i.e. `n` has no group or other permission bits. -/
theorem endsWith00_pyOct_imp {n : Nat} (h : endsWith00 (pyOct n) = true) : n % 64 = 0 := by
  by_cases h0 : n = 0
  · omega
  · unfold pyOct at h
    rw [if_neg h0] at h
    unfold endsWith00 at h
    replace h := of_decide_eq_true h
    rw [List.reverse_cons, List.reverse_reverse] at h
    rw [octRev] at h
    by_cases hn : n < 8
    · rw [if_pos hn] at h
      have h' : [digitChar n, '0'] = ['0', '0'] := h
      injection h' with h1 _
      have : n = 0 := (digitChar_eq_zero_iff (by omega)).mp h1
      omega
    · rw [if_neg hn] at h
      cases hr : octRev n (n / 8) with
      | nil =>
        have hh := @octRev_head n (n / 8) (by omega)
        rw [hr] at hh
        exact absurd hh (by simp)
      | cons d1 rest =>
        rw [hr] at h
        have h' : [digitChar (n % 8), d1] = ['0', '0'] := h
        injection h' with h1 h2
        injection h2 with h2 _
        have hd1 : d1 = digitChar (n / 8 % 8) := by
          have hh := @octRev_head n (n / 8) (by omega)
          rw [hr] at hh
          simpa using hh
        have e1 : n % 8 = 0 := (digitChar_eq_zero_iff (by omega : n % 8 < 10)).mp h1
        have e2 : n / 8 % 8 = 0 := by
          apply (digitChar_eq_zero_iff (by omega : n / 8 % 8 < 10)).mp
          rw [← hd1]
          exact h2
        omega

/-! ### Trailer and stream-read helpers -/

theorem packField_length (w : Nat) (s : Name) : (packField w s).length = w := by
  unfold packField
  simp only [List.length_append, List.length_take, List.length_map, List.length_replicate,
    Nat.min_def]
  split <;> omega

theorem id3v1Tag_length (t : Track) : (id3v1Tag t).length = 128 := by
  unfold id3v1Tag
  simp only [List.length_append, packField_length, List.length_cons, List.length_nil]

theorem id3v1Tag_take3 (t : Track) : (id3v1Tag t).take 3 = [84, 65, 71] := by
  unfold id3v1Tag
  simp only [List.append_assoc]
  rw [List.take_left' (packField_length 3 "TAG".data)]
  decide

theorem id3v1Tag_getLast (t : Track) : (id3v1Tag t).getLast? = some 12 := by
  unfold id3v1Tag
  exact List.getLast?_concat _

theorem httpRead_natCast (remaining : List Nat) (size : Nat) :
    httpRead remaining (size : Int) = (remaining.take size, remaining.drop size) := by
  unfold httpRead
  rw [if_neg (by omega), Int.toNat_natCast]

theorem find?_title_nodup (l : List Track) (T : Track) (hT : T ∈ l)
    (hnd : (l.map (fun tr => pyLower (formatNames tr.title))).Nodup) :
    l.find? (fun tr => formatNames (pyLower tr.title) == pyLower (formatNames T.title))
      = some T := by
  induction l with
  | nil => simp at hT
  | cons h hs ih =>
    rcases List.mem_cons.mp hT with hT | hT
    · subst hT
      refine List.find?_cons_of_pos _ ?_
      simp only [beq_iff_eq]
      exact (pyLower_formatNames T.title).symm
    · have hnd' : pyLower (formatNames h.title)
          ∉ hs.map (fun tr => pyLower (formatNames tr.title)) ∧
          (hs.map (fun tr => pyLower (formatNames tr.title))).Nodup := by
        rw [List.map_cons] at hnd
        exact List.nodup_cons.mp hnd
      have hfT : pyLower (formatNames T.title)
          ∈ hs.map (fun tr => pyLower (formatNames tr.title)) :=
        List.mem_map_of_mem _ hT
      have hne : (formatNames (pyLower h.title) == pyLower (formatNames T.title)) = false := by
        rw [← pyLower_formatNames h.title]
        simp only [beq_eq_false_iff_ne, ne_eq]
        intro he
        exact hnd'.1 (he ▸ hfT)
      rw [List.find?_cons_of_neg _ (by simp [hne])]
      exact ih hT hnd'.2

/-! ## The claims -/

/-- Claim C10 (confirmed): for any album and a filename of the shape
`{digits} - {title}.mp3` (title free of newlines), `Album.get_track` ignores
the digit prefix entirely and returns the first track in the album's current
listing order whose `formatNames(title.lower())` equals the lower-cased title
part, `none` when no title matches. -/
theorem c10_album_track_by_title (a : Album) (d t : Name) (hd1 : d ≠ [])
    (hd2 : ∀ c ∈ d, isDigitChar c = true) (ht : '\n' ∉ t) :
    a.get_track (d ++ " - ".data ++ t ++ ".mp3".data) =
      a.tracks.find? (fun tr => formatNames (pyLower tr.title) == pyLower t) := by
  have hp : parseAlbumFilename (d ++ " - ".data ++ t ++ ".mp3".data) = some t :=
    parseAlbumFilename_mk hd1 hd2 ht
  simp only [Album.get_track, hp, Album.get_tracks_eq]

/-- Claim C10, witness: the filename `999 - X.mp3` with a wrong number and a
case-flipped title resolves, and two same-titled tracks resolve to the
first. -/
theorem c10_album_track_by_title_witness :
    albumC4dup.get_track ("999".data ++ " - ".data ++ "X".data ++ ".mp3".data) =
      albumC4dup.tracks.find? (fun tr => formatNames (pyLower tr.title) == pyLower "X".data) ∧
    albumC4dup.get_track ("999".data ++ " - ".data ++ "X".data ++ ".mp3".data) = some trackX1 :=
  ⟨c10_album_track_by_title albumC4dup "999".data "X".data (by decide) (by decide) (by decide),
   by decide⟩

/-- Claim C4, counterexample: with two same-titled tracks in one album the
round trip fails — `trackX2`'s rendered filename `002 - x.mp3` appears in the
listing but resolves to `trackX1`, not `trackX2`. -/
theorem c4_counterexample_duplicate_titles :
    trackX1 ≠ trackX2 ∧
    renderAlbumEntry false trackX2 = "002 - x.mp3".data ∧
    renderAlbumEntry false trackX2 ∈ readdirAlbum false albumC4dup ∧
    albumC4dup.get_track (renderAlbumEntry false trackX2) = some trackX1 := by decide

/-- Claim C4 (amended): for every track of an album whose formatted title has
no newline, the rendered `readdir` entry appears in the album listing and
`Album.get_track` on it returns the first track with a case-insensitively
equal formatted title — which is that exact track whenever the album's
lower-cased formatted titles are pairwise distinct. -/
theorem c4_roundtrip_artist_album (lc : Bool) (A : Album) (T : Track)
    (hT : T ∈ A.tracks) (hnl : '\n' ∉ formatNames T.title)
    (hnd : (A.tracks.map (fun tr => pyLower (formatNames tr.title))).Nodup) :
    renderAlbumEntry lc T ∈ readdirAlbum lc A ∧
    A.get_track (renderAlbumEntry lc T) = some T := by
  constructor
  · unfold readdirAlbum
    rw [Album.get_tracks_eq]
    have hmem : renderAlbumEntry lc T ∈ A.tracks.map (renderAlbumEntry lc) :=
      List.mem_map_of_mem _ hT
    exact List.mem_append.mpr (Or.inl (List.mem_append.mpr (Or.inr hmem)))
  · have hp : parseAlbumFilename (renderAlbumEntry lc T)
        = some (applyCase lc (formatNames T.title)) :=
      parseAlbumFilename_mk (pad3_ne_nil T.trackNumber) (pad3_digits T.trackNumber)
        (newline_notMem_applyCase lc hnl)
    simp only [Album.get_track, hp, Album.get_tracks_eq, pyLower_applyCase]
    exact find?_title_nodup A.tracks T hT hnd

/-- Claim C4, witness: in a two-track album with distinct titles the round
trip restores the exact track. -/
theorem c4_roundtrip_artist_album_witness :
    renderAlbumEntry false trackN1 ∈ readdirAlbum false albumC8 ∧
    albumC8.get_track (renderAlbumEntry false trackN1) = some trackN1 :=
  c4_roundtrip_artist_album false albumC8 trackN1 (by decide) (by decide) (by decide)

/-- Claim C5, counterexample: an album whose tracks carry years 2001 then 2000
in insertion order, one occurrence each — the tie is broken by the CPython
dict's table order (2000 sits in slot 0, 2001 in slot 1), so `get_year`
returns 2000, not the first-inserted 2001 the claim requires. -/
theorem c5_counterexample_tie :
    albumYearsTie.tracks.map Track.year = [some 2001, some 2000] ∧
    albumYearsTie.get_year = 2000 ∧ (2000 : Int) ≠ 2001 := by decide

/-- Claim C5 (amended): `Album.get_year` returns the year with the strictly
highest occurrence count among the dict's items (ties are broken by the
CPython hash-table iteration order, not insertion order), and the zero
sentinel when no track has a truthy year. -/
theorem c5_get_year_mode (a : Album) :
    (∀ y c, (y, c) ∈ dictItems a.yearsDict →
       (∀ q ∈ dictItems a.yearsDict, q.1 ≠ y → q.2 < c) →
       a.get_year = y) ∧
    (dictItems a.yearsDict = [] → a.get_year = 0) := by
  constructor
  · intro y c hm hmax
    unfold Album.get_year
    cases htop : stableSort (fun p1 p2 : Int × Nat => p2.2 < p1.2) (dictItems a.yearsDict) with
    | nil =>
      exfalso
      have hl := length_stableSort (fun p1 p2 : Int × Nat => p2.2 < p1.2) (dictItems a.yearsDict)
      rw [htop] at hl
      have h0 : dictItems a.yearsDict = [] := List.length_eq_zero.mp hl.symm
      rw [h0] at hm
      simp at hm
    | cons q rest =>
      show q.1 = y
      have hq : (stableSort (fun p1 p2 : Int × Nat => p2.2 < p1.2)
          (dictItems a.yearsDict)).head? = some q := by
        rw [htop]
        rfl
      have hqmem := stableSort_count_head_mem _ _ hq
      have hqmax := stableSort_count_head_max _ _ hq (y, c) hm
      by_cases hqy : q.1 = y
      · exact hqy
      · exfalso
        have := hmax q hqmem hqy
        simp only at hqmax
        omega
  · intro h0
    unfold Album.get_year
    rw [h0]
    rfl

/-- Claim C5, witness: years [2000, 2000, 2001] give 2000 through the
unique-maximum case, and an album with no years gives the zero sentinel. -/
theorem c5_get_year_mode_witness :
    albumYears3.get_year = 2000 ∧ albumYearsNone.get_year = 0 :=
  ⟨(c5_get_year_mode albumYears3).1 2000 2 (by decide) (by decide),
   (c5_get_year_mode albumYearsNone).2 (by decide)⟩

/-- Claim C8 (code defect): the per-track entries of an album listing are NOT
re-sorted by track number — `get_tracks` sorts by the key `t.get('track')`,
which is `None` for every record (the field is `trackNumber`), so the stable
sort leaves insertion order: an album fed tracks numbered 2 then 1 lists
`002 - b.mp3` before `001 - a.mp3`.  The `cover.jpg` half of the claim holds:
it is appended exactly when a cover URL exists. -/
theorem c8_album_listing_insertion_order :
    (∀ a : Album, a.get_tracks = a.tracks) ∧
    readdirAlbum false albumC8 =
      [".".data, "..".data, "002 - b.mp3".data, "001 - a.mp3".data] ∧
    albumC8.get_cover_url = none ∧
    readdirAlbum false albumC8cover =
      [".".data, "..".data, "002 - b.mp3".data, "001 - a.mp3".data, "cover.jpg".data] ∧
    albumC8cover.get_cover_url = some "http://cover".data :=
  ⟨Album.get_tracks_eq, by decide, by decide, by decide, by decide⟩

/-- Claim C7 (code defect): the playlist listing does render strictly
increasing 1-based zero-padded ordinals regardless of the stored track
numbers (tracks numbered 9 and 1 render as `001-*` and `002-*`), but
resolving any such rendered filename raises `TypeError`: the regex group is a
string and `tracknum - 1` subtracts an int from a str, so the lookup never
returns the track at the ordinal. -/
theorem c7_playlist_ordinals_and_lookup :
    trackA9.trackNumber = 9 ∧ trackB1.trackNumber = 1 ∧
    playlistC7.tracks = [trackA9, trackB1] ∧
    readdirPlaylist false playlistC7 =
      [".".data, "..".data, "001 - aa - ba - ta.mp3".data, "002 - ab - bb - tb.mp3".data] ∧
    playlistC7.get_track "001 - aa - ba - ta.mp3".data = .error .typeError ∧
    playlistC7.get_track "002 - ab - bb - tb.mp3".data = .error .typeError := by decide

/-- Claim C2 (code defect): `track_to_stat` can never produce the described
attributes — after setting the mode it evaluates `'bytes' in t` where `t` is
an unbound name, so every call on a real track raises `NameError` (and
`getattr` on a fully resolvable track path surfaces it). -/
theorem c2_track_to_stat_name_error :
    (∀ t : Track, track_to_stat (some t) = .error .nameError) ∧
    GMusicFS.getattr libC1 pathC1 = .error .nameError :=
  ⟨fun _ => rfl, by decide⟩

/-- Claim C3, counterexample: on an empty catalog the unknown-artist
directory path `/artists/nosuch` gets a successful default directory stat
from `getattr` — not the "not found" signal the claim requires — and `open`
on an unknown artist's track path raises `AttributeError`, again not
"not found". -/
theorem c3_counterexample_unknown_entities :
    GMusicFS.getattr emptyLib "/artists/nosuch".data = .ok dirStat ∧
    GMusicFS.getattr emptyLib "/artists/nosuch".data ≠ .error .enoent ∧
    GMusicFS.getattr emptyLib "/artists/nosuch/2000 - alb/001 - t.mp3".data
      = .error .attributeError ∧
    GMusicFS.open emptyLib "/artists/nosuch/2000 - alb/001 - t.mp3".data
      = .error .attributeError ∧
    GMusicFS.getattr emptyLib "/playlists/nosuch".data = .ok dirStat := by decide

theorem get_cover_size_ne_enoent (a : Album) (tfs : Bool) (net : Name → Option Int) :
    a.get_cover_size tfs net ≠ .error .enoent := by
  unfold Album.get_cover_size
  by_cases h : tfs = true
  · rw [if_pos h]
    cases hcu : a.get_cover_url with
    | none => simp [hcu]
    | some u =>
      cases hnu : net u with
      | none => simp [hcu, hnu]
      | some n => simp [hcu, hnu]
  · rw [if_neg h]
    simp

theorem getattr_matched_ne_enoent (lib : MusicLibrary) (p : Name)
    (h : classifyPath p ≠ PathTarget.noMatch) :
    GMusicFS.getattr lib p ≠ .error .enoent := by
  unfold GMusicFS.getattr
  cases hcq : classifyPath p with
  | noMatch => exact absurd hcq h
  | root => simp
  | artistsRoot => simp
  | playlistsRoot => simp
  | artistDir a => simp
  | albumDir a y alb => simp
  | playlistDir pl => simp
  | trackFile a y alb tf =>
    cases hga : lib.get_artist a with
    | none => simp [hga]
    | some ar =>
      cases hal : ar.get_album alb with
      | none => simp [hga, hal]
      | some al =>
        cases htf : al.get_track tf with
        | none => simp [hga, hal, htf, track_to_stat]
        | some tr => simp [hga, hal, htf, track_to_stat]
  | imageFile a y alb im =>
    cases hga : lib.get_artist a with
    | none => simp [hga]
    | some ar =>
      cases hal : ar.get_album alb with
      | none => simp [hga, hal]
      | some al =>
        cases hcs : al.get_cover_size lib.true_file_size lib.net with
        | error e =>
          have hne := get_cover_size_ne_enoent al lib.true_file_size lib.net
          rw [hcs] at hne
          simp only [ne_eq, Except.error.injEq] at hne
          simp [hga, hal, hcs, hne]
        | ok cs => simp [hga, hal, hcs]
  | playlistTrackFile pl tf =>
    cases hpl : lib.get_playlist pl with
    | none => simp [hpl]
    | some pl' =>
      cases hgt : parsePlaylistFilename tf with
      | some d => simp [hpl, Playlist.get_track, hgt]
      | none => simp [hpl, Playlist.get_track, hgt, track_to_stat]

/-- Claim C3 (amended): only a path matching none of the grammar shapes gets
`ENOENT` from `getattr` (and a `NameError` from `open`, whose `RuntimeError`
is never raised) — every structurally matched path gets something other than
`ENOENT`.  A matched path whose entity is missing yields a successful default
directory stat for the directory shapes (unknown artist, unknown album,
unknown playlist), and raises `AttributeError`/`TypeError` — not the
missing-entry signal — for the file shapes: unknown artist or album on a
track or cover-image path, an unknown playlist on a playlist-track path, and
an unresolved track within a known album or playlist. -/
theorem c3_resolution_errors (lib : MusicLibrary) (p : Name) :
    (∀ a, classifyPath p = .artistDir a → GMusicFS.getattr lib p = .ok dirStat) ∧
    (∀ a y alb, classifyPath p = .albumDir a y alb → GMusicFS.getattr lib p = .ok dirStat) ∧
    (∀ pl, classifyPath p = .playlistDir pl → GMusicFS.getattr lib p = .ok dirStat) ∧
    (∀ a y alb tf, classifyPath p = .trackFile a y alb tf → lib.get_artist a = none →
       GMusicFS.getattr lib p = .error .attributeError ∧
       GMusicFS.open lib p = .error .attributeError) ∧
    (∀ a y alb tf ar, classifyPath p = .trackFile a y alb tf → lib.get_artist a = some ar →
       ar.get_album alb = none →
       GMusicFS.getattr lib p = .error .attributeError ∧
       GMusicFS.open lib p = .error .attributeError) ∧
    (∀ a y alb tf ar al, classifyPath p = .trackFile a y alb tf →
       lib.get_artist a = some ar → ar.get_album alb = some al → al.get_track tf = none →
       GMusicFS.getattr lib p = .error .typeError ∧
       GMusicFS.open lib p = .error .typeError) ∧
    (∀ a y alb im, classifyPath p = .imageFile a y alb im → lib.get_artist a = none →
       GMusicFS.getattr lib p = .error .attributeError ∧
       GMusicFS.open lib p = .error .attributeError) ∧
    (∀ a y alb im ar, classifyPath p = .imageFile a y alb im → lib.get_artist a = some ar →
       ar.get_album alb = none →
       GMusicFS.getattr lib p = .error .attributeError ∧
       GMusicFS.open lib p = .error .attributeError) ∧
    (∀ pl tf, classifyPath p = .playlistTrackFile pl tf → lib.get_playlist pl = none →
       GMusicFS.getattr lib p = .error .attributeError ∧
       GMusicFS.open lib p = .error .attributeError) ∧
    (∀ pl tf pl', classifyPath p = .playlistTrackFile pl tf → lib.get_playlist pl = some pl' →
       GMusicFS.getattr lib p = .error .typeError ∧
       GMusicFS.open lib p = .error .typeError) ∧
    (classifyPath p = .noMatch →
       GMusicFS.getattr lib p = .error .enoent ∧ GMusicFS.open lib p = .error .nameError) ∧
    (classifyPath p ≠ .noMatch → GMusicFS.getattr lib p ≠ .error .enoent) := by
  refine ⟨?_, ?_, ?_, ?_, ?_, ?_, ?_, ?_, ?_, ?_, ?_, ?_⟩
  · intro a h
    simp [GMusicFS.getattr, h]
  · intro a y alb h
    simp [GMusicFS.getattr, h]
  · intro pl h
    simp [GMusicFS.getattr, h]
  · intro a y alb tf h hart
    exact ⟨by simp [GMusicFS.getattr, h, hart], by simp [GMusicFS.open, h, hart]⟩
  · intro a y alb tf ar h hart halb
    exact ⟨by simp [GMusicFS.getattr, h, hart, halb],
           by simp [GMusicFS.open, h, hart, halb]⟩
  · intro a y alb tf ar al h hart halb htr
    exact ⟨by simp [GMusicFS.getattr, h, hart, halb, htr, track_to_stat],
           by simp [GMusicFS.open, h, hart, halb, htr]⟩
  · intro a y alb im h hart
    exact ⟨by simp [GMusicFS.getattr, h, hart], by simp [GMusicFS.open, h, hart]⟩
  · intro a y alb im ar h hart halb
    exact ⟨by simp [GMusicFS.getattr, h, hart, halb],
           by simp [GMusicFS.open, h, hart, halb]⟩
  · intro pl tf h hpl
    exact ⟨by simp [GMusicFS.getattr, h, hpl], by simp [GMusicFS.open, h, hpl]⟩
  · intro pl tf pl' h hpl
    constructor
    · cases hgt : parsePlaylistFilename tf with
      | some d => simp [GMusicFS.getattr, h, hpl, Playlist.get_track, hgt]
      | none => simp [GMusicFS.getattr, h, hpl, Playlist.get_track, hgt, track_to_stat]
    · cases hgt : parsePlaylistFilename tf with
      | some d => simp [GMusicFS.open, h, hpl, Playlist.get_track, hgt]
      | none => simp [GMusicFS.open, h, hpl, Playlist.get_track, hgt]
  · intro h
    exact ⟨by simp [GMusicFS.getattr, h], by simp [GMusicFS.open, h]⟩
  · exact getattr_matched_ne_enoent lib p

/-- Claim C3, witness: on concrete inputs each family of the amended claim
fires — unknown artist and album directories get the default directory stat;
the cover-image path of an unknown artist gets `AttributeError` from both
`getattr` and `open`; a known playlist's track filename gets `TypeError` from
both; the shapeless `/nope` alone gets `ENOENT` (with `NameError` from
`open`); and a matched path is never `ENOENT`. -/
theorem c3_resolution_errors_witness :
    GMusicFS.getattr emptyLib "/artists/a".data = .ok dirStat ∧
    GMusicFS.getattr emptyLib "/artists/a/2000 - b".data = .ok dirStat ∧
    GMusicFS.getattr emptyLib "/artists/a/2000 - b/cover.jpg".data = .error .attributeError ∧
    GMusicFS.open emptyLib "/artists/a/2000 - b/cover.jpg".data = .error .attributeError ∧
    GMusicFS.getattr libPl "/playlists/pl/001 - x.mp3".data = .error .typeError ∧
    GMusicFS.open libPl "/playlists/pl/001 - x.mp3".data = .error .typeError ∧
    GMusicFS.getattr emptyLib "/nope".data = .error .enoent ∧
    GMusicFS.open emptyLib "/nope".data = .error .nameError ∧
    GMusicFS.getattr emptyLib "/artists/a".data ≠ .error .enoent := by
  refine ⟨?_, ?_, ?_, ?_, ?_, ?_, ?_, ?_, ?_⟩
  · exact (c3_resolution_errors emptyLib "/artists/a".data).1 "a".data (by decide)
  · exact (c3_resolution_errors emptyLib "/artists/a/2000 - b".data).2.1
      "a".data "2000".data "b".data (by decide)
  · exact ((c3_resolution_errors emptyLib "/artists/a/2000 - b/cover.jpg".data).2.2.2.2.2.2.1
      "a".data "2000".data "b".data "cover.jpg".data (by decide) (by decide)).1
  · exact ((c3_resolution_errors emptyLib "/artists/a/2000 - b/cover.jpg".data).2.2.2.2.2.2.1
      "a".data "2000".data "b".data "cover.jpg".data (by decide) (by decide)).2
  · exact ((c3_resolution_errors libPl "/playlists/pl/001 - x.mp3".data).2.2.2.2.2.2.2.2.2.1
      "pl".data "001 - x.mp3".data playlistC7 (by decide) (by decide)).1
  · exact ((c3_resolution_errors libPl "/playlists/pl/001 - x.mp3".data).2.2.2.2.2.2.2.2.2.1
      "pl".data "001 - x.mp3".data playlistC7 (by decide) (by decide)).2
  · exact ((c3_resolution_errors emptyLib "/nope".data).2.2.2.2.2.2.2.2.2.2.1 (by decide)).1
  · exact ((c3_resolution_errors emptyLib "/nope".data).2.2.2.2.2.2.2.2.2.2.1 (by decide)).2
  · exact (c3_resolution_errors emptyLib "/artists/a".data).2.2.2.2.2.2.2.2.2.2.2 (by decide)

/-- Claim C1 (amended): on an artists-hierarchy track path with an active
stream, the trailer is spliced exactly when the declared content length is
*strictly* below `offset + size` (the boundary case `offset + size =
Content-Length` reads plainly): the buffer is then the result of reading
`size - 128` bytes followed by the 128-byte ID3v1 block whose first three
bytes are `TAG` (84, 65, 71) and whose last (genre) byte is 12; every
non-final track read, and every read on a non-track path (cover image,
playlist entry), returns exactly the `size`-byte sequential read. -/
theorem c1_read_trailer (lib : MusicLibrary) (p : Name) (a y alb tf : Name)
    (ar : Artist) (al : Album) (tr : Track) (u : OpenStream) (size offset : Nat)
    (hp : classifyPath p = .trackFile a y alb tf)
    (hart : lib.get_artist a = some ar)
    (halb : ar.get_album alb = some al)
    (htr : al.get_track tf = some tr) :
    (u.contentLength < (offset : Int) + (size : Int) →
      GMusicFS.read lib p size offset (some u) =
        .ok ((httpRead u.remaining ((size : Int) - 128)).1 ++ id3v1Tag tr,
             { u with remaining := (httpRead u.remaining ((size : Int) - 128)).2,
                      bytes_read := u.bytes_read + size }) ∧
      (id3v1Tag tr).length = 128 ∧
      (id3v1Tag tr).take 3 = [84, 65, 71] ∧
      (id3v1Tag tr).getLast? = some 12 ∧
      (128 ≤ size → size - 128 ≤ u.remaining.length →
        ((httpRead u.remaining ((size : Int) - 128)).1).length = size - 128)) ∧
    ((offset : Int) + (size : Int) ≤ u.contentLength →
      GMusicFS.read lib p size offset (some u) =
        .ok (u.remaining.take size,
             { u with remaining := u.remaining.drop size,
                      bytes_read := u.bytes_read + size })) ∧
    (∀ q, (∀ b y2 c d, classifyPath q ≠ .trackFile b y2 c d) →
      GMusicFS.read lib q size offset (some u) =
        .ok (u.remaining.take size,
             { u with remaining := u.remaining.drop size,
                      bytes_read := u.bytes_read + size })) := by
  refine ⟨?_, ?_, ?_⟩
  · intro hlt
    refine ⟨?_, id3v1Tag_length tr, id3v1Tag_take3 tr, id3v1Tag_getLast tr, ?_⟩
    · simp [GMusicFS.read, hp, hart, halb, htr, hlt]
    · intro hsz hrem
      unfold httpRead
      rw [if_neg (by omega)]
      simp only [List.length_take]
      have ht128 : ((size : Int) - 128).toNat = size - 128 := by omega
      rw [ht128]
      exact min_eq_left hrem
  · intro hle
    have hnlt : ¬ (u.contentLength < (offset : Int) + (size : Int)) := by omega
    simp [GMusicFS.read, hp, hnlt, httpRead_natCast]
  · intro q hq
    cases hcq : classifyPath q with
    | trackFile b y2 c d => exact absurd hcq (hq b y2 c d)
    | root => simp [GMusicFS.read, hcq, httpRead_natCast]
    | artistsRoot => simp [GMusicFS.read, hcq, httpRead_natCast]
    | playlistsRoot => simp [GMusicFS.read, hcq, httpRead_natCast]
    | artistDir a2 => simp [GMusicFS.read, hcq, httpRead_natCast]
    | albumDir a2 y2 b2 => simp [GMusicFS.read, hcq, httpRead_natCast]
    | imageFile a2 y2 b2 i2 => simp [GMusicFS.read, hcq, httpRead_natCast]
    | playlistDir p2 => simp [GMusicFS.read, hcq, httpRead_natCast]
    | playlistTrackFile p2 t2 => simp [GMusicFS.read, hcq, httpRead_natCast]
    | noMatch => simp [GMusicFS.read, hcq, httpRead_natCast]

/-- Claim C1, witness: the one-track library streamed with content length
300, offset 100 and size 250 (a window past the end) returns the 122
remaining payload bytes plus the 128-byte trailer; at offset 100 and size 200
(window inside the payload) the read is plain. -/
theorem c1_read_trailer_witness :
    (streamC1.contentLength < (100 : Int) + (250 : Int) →
      GMusicFS.read libC1 pathC1 250 100 (some streamC1) =
        .ok ((httpRead streamC1.remaining ((250 : Int) - 128)).1 ++ id3v1Tag trkC1,
             { streamC1 with remaining := (httpRead streamC1.remaining ((250 : Int) - 128)).2,
                             bytes_read := streamC1.bytes_read + 250 }) ∧
      (id3v1Tag trkC1).length = 128 ∧
      (id3v1Tag trkC1).take 3 = [84, 65, 71] ∧
      (id3v1Tag trkC1).getLast? = some 12 ∧
      (128 ≤ 250 → 250 - 128 ≤ streamC1.remaining.length →
        ((httpRead streamC1.remaining ((250 : Int) - 128)).1).length = 250 - 128)) ∧
    ((100 : Int) + (200 : Int) ≤ streamC1.contentLength →
      GMusicFS.read libC1 pathC1 200 100 (some streamC1) =
        .ok (streamC1.remaining.take 200,
             { streamC1 with remaining := streamC1.remaining.drop 200,
                             bytes_read := streamC1.bytes_read + 200 })) :=
  ⟨(c1_read_trailer libC1 pathC1 "A".data "2000".data "B".data "001 - t.mp3".data
      artC1 albC1 trkC1 streamC1 250 100
      (by decide) (by decide) (by decide) (by decide)).1,
   (c1_read_trailer libC1 pathC1 "A".data "2000".data "B".data "001 - t.mp3".data
      artC1 albC1 trkC1 streamC1 200 100
      (by decide) (by decide) (by decide) (by decide)).2.1⟩

/-- Claim C1, counterexample: at the exact boundary `offset + size =
Content-Length` (172 + 128 = 300) the claim demands a buffer ending in the
`TAG` trailer, but the code's strict `<` comparison takes the plain branch:
the returned buffer is 128 raw payload bytes and does not start with
`TAG`. -/
theorem c1_counterexample_boundary :
    streamC1.contentLength = 300 ∧
    GMusicFS.read libC1 pathC1 128 172 (some streamC1) =
      .ok (List.replicate 128 7, (⟨300, List.replicate 2 7, 128⟩ : OpenStream)) ∧
    ¬ ((List.replicate 128 (7 : Nat)).take 3 = [84, 65, 71]) := by decide

/-- Claim C6 (confirmed): a track's owning artist name is the formatted
album-artist when it does not strip to blank, else the formatted artist when
it does not strip to blank, else the literal `Unknown`; the bucket key is the
lower-cased chosen name, and any two catalog tracks agreeing on
(lower-cased chosen artist, lower-cased formatted album title) end up in the
same album's track list. -/
theorem c6_artist_bucketing (ts : List Track) (t1 t2 : Track)
    (h1 : t1 ∈ ts) (h2 : t2 ∈ ts)
    (hkA : artistKeyOf t1 = artistKeyOf t2)
    (hkB : pyLower (formatNames t1.album) = pyLower (formatNames t2.album)) :
    (pyStrip (formatNames t1.albumArtist) ≠ [] →
       chosenArtistName t1 = formatNames t1.albumArtist) ∧
    (pyStrip (formatNames t1.albumArtist) = [] → pyStrip (formatNames t1.artist) ≠ [] →
       chosenArtistName t1 = formatNames t1.artist) ∧
    (pyStrip (formatNames t1.albumArtist) = [] → pyStrip (formatNames t1.artist) = [] →
       chosenArtistName t1 = "Unknown".data) ∧
    t1 ∈ albumTracksIn (aggregateArtists ts) (pyLower (chosenArtistName t1))
      (pyLower (formatNames t1.album)) ∧
    t2 ∈ albumTracksIn (aggregateArtists ts) (pyLower (chosenArtistName t1))
      (pyLower (formatNames t1.album)) := by
  refine ⟨?_, ?_, ?_, ?_, ?_⟩
  · intro hA
    simp [chosenArtistName, hA]
  · intro hA hB
    simp [chosenArtistName, hA, hB]
  · intro hA hB
    simp [chosenArtistName, hA, hB]
  · exact mem_aggregateArtists h1
  · rw [show pyLower (chosenArtistName t1) = artistKeyOf t2 from hkA, hkB]
    exact mem_aggregateArtists h2

/-- Claim C6, witness: two tracks whose album-artist fields (`AA` and `aa`)
and album titles (`AL` and `al`) agree case-insensitively land in the same
album bucket, keyed by the album-artist and not the differing artist
fields. -/
theorem c6_artist_bucketing_witness :
    chosenArtistName trk6a = formatNames trk6a.albumArtist ∧
    trk6a ∈ albumTracksIn (aggregateArtists [trk6a, trk6b])
      (pyLower (chosenArtistName trk6a)) (pyLower (formatNames trk6a.album)) ∧
    trk6b ∈ albumTracksIn (aggregateArtists [trk6a, trk6b])
      (pyLower (chosenArtistName trk6a)) (pyLower (formatNames trk6a.album)) :=
  ⟨(c6_artist_bucketing [trk6a, trk6b] trk6a trk6b (by decide) (by decide)
      (by decide) (by decide)).1 (by decide),
   (c6_artist_bucketing [trk6a, trk6b] trk6a trk6b (by decide) (by decide)
      (by decide) (by decide)).2.2.2.1,
   (c6_artist_bucketing [trk6a, trk6b] trk6a trk6b (by decide) (by decide)
      (by decide) (by decide)).2.2.2.2⟩

/-- Claim C9, counterexample: a protected credential file (mode 0o100600)
whose `[credentials]` section has username and password but no `deviceId`
key at all makes `ConfigParser.get` raise its own `NoOptionError` — a
different condition from `NoCredentialException` — so a missing field is not
reported as the distinct no-credentials condition the claim requires. -/
theorem c9_counterexample_missing_field :
    credsFromConfig ⟨true, 33152, [("username".data, "u".data), ("password".data, "p".data)]⟩
      = .error (.noOption "deviceId".data) ∧
    CredErr.noOption "deviceId".data ≠ CredErr.noCredential ∧
    login_and_setup none none
      ⟨true, 33152, [("username".data, "u".data), ("password".data, "p".data)]⟩
      = (.error (.noOption "deviceId".data), []) := by decide

/-- Claim C9 (amended): with no usable username/password passed in, a missing
credential file, a file whose mode has any group/other permission bits, and a
present-but-empty username, password or deviceId value each abort with
`NoCredentialException` before the `api.login` network call (the trace stays
empty on every error); a key absent from the file instead surfaces as the
config parser's own missing-option error. -/
theorem c9_credential_checks (u p : Option Name) (f : CredFile)
    (hnup : ¬(pyTruthy u = true ∧ pyTruthy p = true)) :
    (f.isFile = false → login_and_setup u p f = (.error .noCredential, [])) ∧
    (f.isFile = true → f.st_mode % 64 ≠ 0 →
       login_and_setup u p f = (.error .noCredential, [])) ∧
    (∀ uu pp dd, f.isFile = true → endsWith00 (pyOct f.st_mode) = true →
       assocGet "username".data f.options = some uu →
       assocGet "password".data f.options = some pp →
       assocGet "deviceId".data f.options = some dd →
       ((uu = [] ∨ pp = []) → login_and_setup u p f = (.error .noCredential, [])) ∧
       (uu ≠ [] → pp ≠ [] → dd = [] →
          login_and_setup u p f = (.error .noCredential, []))) ∧
    (f.isFile = true → endsWith00 (pyOct f.st_mode) = true →
       assocGet "username".data f.options = none →
       login_and_setup u p f = (.error (.noOption "username".data), [])) ∧
    (∀ uu, f.isFile = true → endsWith00 (pyOct f.st_mode) = true →
       assocGet "username".data f.options = some uu →
       assocGet "password".data f.options = none →
       login_and_setup u p f = (.error (.noOption "password".data), [])) ∧
    (∀ uu pp, f.isFile = true → endsWith00 (pyOct f.st_mode) = true →
       assocGet "username".data f.options = some uu →
       assocGet "password".data f.options = some pp →
       assocGet "deviceId".data f.options = none →
       login_and_setup u p f = (.error (.noOption "deviceId".data), [])) ∧
    (∀ e, (login_and_setup u p f).1 = .error e → (login_and_setup u p f).2 = []) := by
  refine ⟨?_, ?_, ?_, ?_, ?_, ?_, ?_⟩
  · intro hfile
    simp [login_and_setup, hnup, credsFromConfig, hfile]
  · intro hfile hmod
    have hE : endsWith00 (pyOct f.st_mode) = false := by
      cases hE0 : endsWith00 (pyOct f.st_mode) with
      | true => exact absurd (endsWith00_pyOct_imp hE0) hmod
      | false => rfl
    simp [login_and_setup, hnup, credsFromConfig, hfile, hE]
  · intro uu pp dd hfile hE hU hP hD
    constructor
    · intro hor
      rcases hor with hz | hz
      · simp [login_and_setup, hnup, credsFromConfig, hfile, hE, configGet, hU, hP, hD, hz]
      · simp [login_and_setup, hnup, credsFromConfig, hfile, hE, configGet, hU, hP, hD, hz]
    · intro hu3 hp3 hd3
      simp [login_and_setup, hnup, credsFromConfig, hfile, hE, configGet, hU, hP, hD,
        hu3, hp3, hd3]
  · intro hfile hE hU
    simp [login_and_setup, hnup, credsFromConfig, hfile, hE, configGet, hU]
  · intro uu hfile hE hU hP
    simp [login_and_setup, hnup, credsFromConfig, hfile, hE, configGet, hU, hP]
  · intro uu pp hfile hE hU hP hD
    simp [login_and_setup, hnup, credsFromConfig, hfile, hE, configGet, hU, hP, hD]
  · intro e he
    unfold login_and_setup at he ⊢
    rw [if_neg hnup] at he ⊢
    cases hc : credsFromConfig f with
    | error e2 => rfl
    | ok c =>
      rw [hc] at he
      exact Except.noConfusion (he : Except.ok c = Except.error e)

/-- Claim C9, witness: the four startup outcomes at concrete credential
files — missing file, group-readable mode 0o100640, empty username value,
and an absent password key. -/
theorem c9_credential_checks_witness :
    login_and_setup none none ⟨false, 0, []⟩ = (.error .noCredential, []) ∧
    login_and_setup none none
      ⟨true, 33184, [("username".data, "u".data), ("password".data, "p".data),
        ("deviceId".data, "d".data)]⟩ = (.error .noCredential, []) ∧
    login_and_setup none none
      ⟨true, 33152, [("username".data, []), ("password".data, "p".data),
        ("deviceId".data, "d".data)]⟩ = (.error .noCredential, []) ∧
    login_and_setup none none
      ⟨true, 33152, [("username".data, "u".data)]⟩
      = (.error (.noOption "password".data), []) :=
  ⟨(c9_credential_checks none none ⟨false, 0, []⟩ (by decide)).1 rfl,
   (c9_credential_checks none none _ (by decide)).2.1 rfl (by decide),
   ((c9_credential_checks none none _ (by decide)).2.2.1 [] "p".data "d".data rfl
      (by decide) (by decide) (by decide) (by decide)).1 (Or.inl rfl),
   (c9_credential_checks none none _ (by decide)).2.2.2.2.1 "u".data rfl
      (by decide) (by decide) (by decide)⟩
